import Mathlib

/-
  Verification of the mesh-reduce optimization pipeline.

  Shallow embedding of the JavaScript sources:
    src/quantizer.js            (quantizePositions, quantizeNormals, quantizeUVs, quantizeTangents)
    src/texture-importance.js   (findUVSeams, buildVertexLock)
    src/glb-parser.js           (parseGLB)
    src/glb-writer.js           (writeGLB)
    src/optimizer.js            (optimizePrimitive, simplifyPrimitive, generateLODChain)
    src/view-importance.js      (mergeImportance)

  Modelling conventions:
  * IEEE doubles are modelled by exact rationals (the idealized arithmetic;
    claims with a float epsilon hold a fortiori when the exact error is shown).
  * Typed arrays are Lists; out-of-range reads yield the typed-array default 0
    only where the JS code itself can never read out of range.
  * External WASM capabilities (meshoptimizer encoder/simplifier) and JS
    builtins without repository source (Math.sqrt, JSON.parse) are passed in
    as function parameters, with their use sites translated verbatim.
  * Thrown JS exceptions are Except/Option errors.
-/

namespace MeshReduce

/-- JS Math.round: rounds half toward positive infinity, exact on rationals. -/
def jsRound (q : ℚ) : ℤ := Int.floor (q + 1/2)

/-- quantizer.js line 81: Math.max(lo, Math.min(hi, x)). -/
def clampInt (lo hi x : ℤ) : ℤ := max lo (min hi x)

/-! ### mergeImportance (view-importance.js, quoted in README.md lines 481-496)

`Float32Array | null` inputs become `Option (List ℚ)`; the three null checks
translate to the three leading match arms in source order. -/

/-- mergeImportance from view-importance.js: element-wise maximum of the two
importance arrays, absent arrays passed through, entries past the end of the
shorter array read as 0. -/
def mergeImportance (textureImportance viewImportance : Option (List ℚ)) :
    Option (List ℚ) :=
  match textureImportance, viewImportance with
  | none, none => none
  | none, some v => some v
  | some t, none => some t
  | some t, some v =>
    let length := max t.length v.length
    some ((List.range length).map (fun i =>
      let ti := if i < t.length then t.getD i 0 else 0
      let vi := if i < v.length then v.getD i 0 else 0
      max ti vi))

/-! ### buildVertexLock (texture-importance.js lines 404-425) and the
caller-side threshold default (optimizer.js, simplifyPrimitive) -/

/-- buildVertexLock from texture-importance.js: per-vertex lock mask.
`importance` may be null (then vertexCount is 0 and the mask is empty);
seam vertices use half the threshold. -/
def buildVertexLock (importance : Option (List ℚ)) (seamVertices : Finset ℕ)
    (importanceThreshold : ℚ) : List Bool :=
  let vertexCount := match importance with | some arr => arr.length | none => 0
  let seamThreshold := importanceThreshold * (1/2)
  (List.range vertexCount).map (fun v =>
    let vertexImportance := match importance with
      | some arr => arr.getD v 0
      | none => 0
    if v ∈ seamVertices then
      decide (vertexImportance > seamThreshold)
    else
      decide (vertexImportance > importanceThreshold))

/-- The call sites in optimizer.js (simplifyPrimitive and generateLODChain)
pass `options.importanceThreshold || 0.5`: JS `||` substitutes 0.5 both when
the option is absent and when it is the falsy value 0. -/
def effectiveImportanceThreshold (importanceThreshold : Option ℚ) : ℚ :=
  match importanceThreshold with
  | none => 1/2
  | some t => if t = 0 then 1/2 else t

end MeshReduce

namespace MeshReduce

/-- Helper: reading the mapped range list at an in-range index. -/
theorem getD_map_range {α : Type} (f : ℕ → α) (n v : ℕ) (d : α) (h : v < n) :
    (((List.range n).map f).getD v d) = f v := by
  rw [List.getD_eq_getElem?_getD, List.getElem?_map, List.getElem?_range h]
  rfl

end MeshReduce

namespace MeshReduce

/-- C5: the vertex lock mask is 1 exactly on seam vertices whose score exceeds
half the threshold and non-seam vertices whose score exceeds the threshold;
the caller-side threshold defaults to 0.5 when not supplied. -/
theorem vertexLock_iff (importance : List ℚ) (seams : Finset ℕ) (T : ℚ) (v : ℕ)
    (hv : v < importance.length) :
    (((buildVertexLock (some importance) seams T).getD v false = true) ↔
      ((v ∈ seams ∧ importance.getD v 0 > (1/2) * T) ∨
       (v ∉ seams ∧ importance.getD v 0 > T))) ∧
    effectiveImportanceThreshold none = 1/2 := by
  constructor
  · unfold buildVertexLock
    rw [getD_map_range _ _ _ _ hv]
    by_cases hs : v ∈ seams <;> simp [hs, mul_comm]
  · rfl

/-- Witness for C5 at a concrete mask: vertex 0 is a seam vertex with score
0.6 above half the threshold 0.5, hence locked. -/
theorem vertexLock_iff_witness :
    (0 < [(3 : ℚ)/5, 1/5].length) ∧
    (((buildVertexLock (some [(3 : ℚ)/5, 1/5]) {0} (1/2)).getD 0 false = true) ↔
      ((0 ∈ ({0} : Finset ℕ) ∧ [(3 : ℚ)/5, 1/5].getD 0 0 > (1/2) * (1/2)) ∨
       (0 ∉ ({0} : Finset ℕ) ∧ [(3 : ℚ)/5, 1/5].getD 0 0 > 1/2))) ∧
    effectiveImportanceThreshold none = 1/2 :=
  ⟨by decide, (vertexLock_iff [(3 : ℚ)/5, 1/5] {0} (1/2) 0 (by decide)).1,
    (vertexLock_iff [(3 : ℚ)/5, 1/5] {0} (1/2) 0 (by decide)).2⟩

/-- C10: mergeImportance returns null for two nulls, passes a single array
through unchanged, and otherwise takes the element-wise maximum over the
longer length with missing entries read as 0. -/
theorem mergeImportance_spec :
    (mergeImportance none none = none) ∧
    (∀ v : List ℚ, mergeImportance none (some v) = some v) ∧
    (∀ t : List ℚ, mergeImportance (some t) none = some t) ∧
    (∀ t v : List ℚ,
      ((mergeImportance (some t) (some v)).getD []).length =
        max t.length v.length ∧
      ∀ i : ℕ, i < max t.length v.length →
        ((mergeImportance (some t) (some v)).getD []).getD i 0 =
          max (if i < t.length then t.getD i 0 else 0)
              (if i < v.length then v.getD i 0 else 0)) := by
  refine ⟨rfl, fun v => rfl, fun t => rfl, fun t v => ⟨?_, fun i hi => ?_⟩⟩
  · simp [mergeImportance]
  · unfold mergeImportance
    simp only [Option.getD_some]
    rw [getD_map_range _ _ _ _ hi]

/-- Witness for C10: merging [1, 3] with [2, 0, 5] at index 2 yields
max 0 5 (texture array exhausted, treated as 0). -/
theorem mergeImportance_spec_witness :
    (2 < max [(1 : ℚ), 3].length [(2 : ℚ), 0, 5].length) ∧
    ((mergeImportance (some [(1 : ℚ), 3]) (some [(2 : ℚ), 0, 5])).getD []).getD 2 0 =
      max (if 2 < [(1 : ℚ), 3].length then [(1 : ℚ), 3].getD 2 0 else 0)
          (if 2 < [(2 : ℚ), 0, 5].length then [(2 : ℚ), 0, 5].getD 2 0 else 0) :=
  ⟨by decide,
    (mergeImportance_spec.2.2.2 [(1 : ℚ), 3] [(2 : ℚ), 0, 5]).2 2 (by decide)⟩

end MeshReduce

namespace MeshReduce

/-! ### findUVSeams (texture-importance.js lines 347-399)

The JS builds a Map from the stringified quantized position
`"px,py,pz"` (with `px = Math.round(positions[v*3] * 10^positionPrecision)`,
default precision 4) to the list of vertices at that position, in vertex
order; the string key is injective on integer triples, so it is modelled as
an integer triple. A bucket of that Map is exactly the in-order list of
vertices whose key matches, modelled below as a filter over the vertex range.
-/

/-- Quantized position key of vertex v (4 decimal places: factor 10^4). -/
def posKey (positions : List ℚ) (v : ℕ) : ℤ × ℤ × ℤ :=
  (jsRound (positions.getD (v * 3) 0 * 10000),
   jsRound (positions.getD (v * 3 + 1) 0 * 10000),
   jsRound (positions.getD (v * 3 + 2) 0 * 10000))

/-- Quantized UV key of vertex v (uvPrecision = 1000 in the source). -/
def uvKey (uvs : List ℚ) (v : ℕ) : ℤ × ℤ :=
  (jsRound (uvs.getD (v * 2) 0 * 1000),
   jsRound (uvs.getD (v * 2 + 1) 0 * 1000))

/-- The Map bucket for key k: vertices with that quantized position, in order. -/
def positionGroup (positions : List ℚ) (k : ℤ × ℤ × ℤ) : List ℕ :=
  (List.range (positions.length / 3)).filter (fun v => posKey positions v = k)

/-- The per-bucket seam check: some later member differs in quantized UV from
the first member (buckets of length ≤ 1 are skipped by the JS and yield
false here since the tail is empty). -/
def groupHasSeam (uvs : List ℚ) (group : List ℕ) : Bool :=
  match group with
  | [] => false
  | first :: rest => rest.any (fun w => decide (uvKey uvs w ≠ uvKey uvs first))

/-- findUVSeams from texture-importance.js: every vertex of every bucket whose
seam check fires. (A vertex belongs to exactly the bucket of its own key.) -/
def findUVSeams (positions uvs : List ℚ) : Finset ℕ :=
  ((List.range (positions.length / 3)).filter
    (fun v => groupHasSeam uvs (positionGroup positions (posKey positions v)))).toFinset

theorem mem_positionGroup (positions : List ℚ) (k : ℤ × ℤ × ℤ) (a : ℕ) :
    a ∈ positionGroup positions k ↔
      a < positions.length / 3 ∧ posKey positions a = k := by
  simp [positionGroup, List.mem_filter, List.mem_range]

theorem groupHasSeam_iff (uvs : List ℚ) (group : List ℕ) :
    groupHasSeam uvs group = true ↔
      ∃ a ∈ group, ∃ b ∈ group, uvKey uvs a ≠ uvKey uvs b := by
  cases group with
  | nil => simp [groupHasSeam]
  | cons first rest =>
    simp only [groupHasSeam, List.any_eq_true, decide_eq_true_eq]
    constructor
    · rintro ⟨w, hw, hne⟩
      exact ⟨w, List.mem_cons_of_mem _ hw, first, List.mem_cons_self _ _, hne⟩
    · rintro ⟨a, ha, b, hb, hne⟩
      rcases List.mem_cons.mp ha with ha1 | ha2
      · rcases List.mem_cons.mp hb with hb1 | hb2
        · exact absurd (by rw [ha1, hb1]) hne
        · exact ⟨b, hb2, fun h => hne (by rw [ha1]; exact h.symm)⟩
      · rcases List.mem_cons.mp hb with hb1 | hb2
        · exact ⟨a, ha2, fun h => hne (by rw [hb1]; exact h)⟩
        · by_cases hfa : uvKey uvs a = uvKey uvs first
          · exact ⟨b, hb2, fun h => hne (hfa.trans h.symm)⟩
          · exact ⟨a, ha2, hfa⟩

/-- C8: a vertex is marked as a UV seam iff another vertex shares its
4-decimal-quantized position and the vertices at that position contain two
members with different 3-decimal-quantized UVs; and whenever a vertex is
marked, every vertex sharing its quantized position is marked too. -/
theorem findUVSeams_iff (positions uvs : List ℚ) (v : ℕ)
    (hv : v < positions.length / 3) :
    (v ∈ findUVSeams positions uvs ↔
      ((∃ w, w < positions.length / 3 ∧ w ≠ v ∧
          posKey positions w = posKey positions v) ∧
       (∃ a b, a < positions.length / 3 ∧ b < positions.length / 3 ∧
          posKey positions a = posKey positions v ∧
          posKey positions b = posKey positions v ∧
          uvKey uvs a ≠ uvKey uvs b))) ∧
    (∀ w, w < positions.length / 3 → posKey positions w = posKey positions v →
      v ∈ findUVSeams positions uvs → w ∈ findUVSeams positions uvs) := by
  have hmem : ∀ u : ℕ, u ∈ findUVSeams positions uvs ↔
      u < positions.length / 3 ∧
      groupHasSeam uvs (positionGroup positions (posKey positions u)) = true := by
    intro u
    simp [findUVSeams, List.mem_toFinset, List.mem_filter, List.mem_range]
  constructor
  · rw [hmem]
    constructor
    · rintro ⟨-, hseam⟩
      rcases (groupHasSeam_iff _ _).mp hseam with ⟨a, ha, b, hb, hne⟩
      rw [mem_positionGroup] at ha hb
      have hab : a ≠ b := fun h => hne (h ▸ rfl)
      refine ⟨?_, a, b, ha.1, hb.1, ha.2, hb.2, hne⟩
      by_cases hav : a = v
      · exact ⟨b, hb.1, fun h => hab (hav.trans h.symm), hb.2⟩
      · exact ⟨a, ha.1, hav, ha.2⟩
    · rintro ⟨-, a, b, ha, hb, hka, hkb, hne⟩
      refine ⟨hv, (groupHasSeam_iff _ _).mpr ⟨a, ?_, b, ?_, hne⟩⟩
      · exact (mem_positionGroup _ _ _).mpr ⟨ha, hka⟩
      · exact (mem_positionGroup _ _ _).mpr ⟨hb, hkb⟩
  · intro w hw hk hvmem
    rw [hmem] at hvmem ⊢
    exact ⟨hw, by rw [hk]; exact hvmem.2⟩

/-- Witness for C8: vertices 0 and 1 share the quantized position (0,0,0) but
have UVs 0 and 0.25; both are marked as seam vertices. -/
theorem findUVSeams_iff_witness :
    ((0 : ℕ) < [(0 : ℚ), 0, 0, 0, 0, 0].length / 3) ∧
    ((0 ∈ findUVSeams [(0 : ℚ), 0, 0, 0, 0, 0] [(0 : ℚ), 0, 1/4, 0]) ↔
      ((∃ w, w < [(0 : ℚ), 0, 0, 0, 0, 0].length / 3 ∧ w ≠ 0 ∧
          posKey [(0 : ℚ), 0, 0, 0, 0, 0] w = posKey [(0 : ℚ), 0, 0, 0, 0, 0] 0) ∧
       (∃ a b, a < [(0 : ℚ), 0, 0, 0, 0, 0].length / 3 ∧
          b < [(0 : ℚ), 0, 0, 0, 0, 0].length / 3 ∧
          posKey [(0 : ℚ), 0, 0, 0, 0, 0] a = posKey [(0 : ℚ), 0, 0, 0, 0, 0] 0 ∧
          posKey [(0 : ℚ), 0, 0, 0, 0, 0] b = posKey [(0 : ℚ), 0, 0, 0, 0, 0] 0 ∧
          uvKey [(0 : ℚ), 0, 1/4, 0] a ≠ uvKey [(0 : ℚ), 0, 1/4, 0] b))) :=
  ⟨by decide, (findUVSeams_iff [(0 : ℚ), 0, 0, 0, 0, 0] [(0 : ℚ), 0, 1/4, 0] 0 (by decide)).1⟩

end MeshReduce

namespace MeshReduce

/-! ### quantizeNormals (quantizer.js lines 110-139)

`Math.sqrt` is a JS builtin with no repository source; it is passed in as a
parameter, constrained in the theorems only by properties real square root
has (`sqrt 0 = 0`, and `a^2 ≤ q → |a| ≤ sqrt q`, i.e. it dominates every
square root lower bound). Outputs are the integers stored into the Int8Array;
the range theorem shows each lies in [-127, 127], so the Int8 store never
wraps, and being integers they are never NaN. -/

/-- One iteration of the quantizeNormals loop: read vertex i, normalize
defensively when the length is positive, round each component times 127. -/
def quantizeNormalVertex (sqrt : ℚ → ℚ) (normals : List ℚ) (i : ℕ) : List ℤ :=
  let nx := normals.getD (i * 3) 0
  let ny := normals.getD (i * 3 + 1) 0
  let nz := normals.getD (i * 3 + 2) 0
  let len := sqrt (nx * nx + ny * ny + nz * nz)
  let nx1 := if len > 0 then nx / len else nx
  let ny1 := if len > 0 then ny / len else ny
  let nz1 := if len > 0 then nz / len else nz
  [jsRound (nx1 * 127), jsRound (ny1 * 127), jsRound (nz1 * 127)]

/-- quantizeNormals from quantizer.js: Float32 VEC3 → Int8 VEC3 normalized. -/
def quantizeNormals (sqrt : ℚ → ℚ) (normals : List ℚ) : List ℤ :=
  ((List.range (normals.length / 3)).map (quantizeNormalVertex sqrt normals)).flatten

theorem join_map_length {α : Type} (f : ℕ → List α) (h3 : ∀ i, (f i).length = 3)
    (n : ℕ) : (((List.range n).map f).flatten).length = 3 * n := by
  induction n with
  | zero => rfl
  | succ m ih =>
    rw [List.range_succ, List.map_append, List.flatten_append, List.length_append, ih]
    simp [h3, Nat.mul_succ]

theorem join_map_getD {α : Type} (f : ℕ → List α) (h3 : ∀ i, (f i).length = 3)
    (n i c : ℕ) (hi : i < n) (hc : c < 3) (d : α) :
    (((List.range n).map f).flatten).getD (i * 3 + c) d = (f i).getD c d := by
  induction n with
  | zero => omega
  | succ m ih =>
    rw [List.range_succ, List.map_append, List.flatten_append]
    by_cases him : i < m
    · rw [List.getD_append]
      · exact ih him
      · rw [join_map_length f h3 m]; omega
    · have hieq : i = m := by omega
      subst hieq
      rw [List.getD_append_right]
      · rw [join_map_length f h3 i]
        simp [Nat.mul_comm]
      · rw [join_map_length f h3 i]; omega

theorem jsRound_range (q : ℚ) (h : |q| ≤ 1) :
    -127 ≤ jsRound (q * 127) ∧ jsRound (q * 127) ≤ 127 := by
  obtain ⟨hlo, hhi⟩ := abs_le.mp h
  constructor
  · rw [jsRound]
    rw [Int.le_floor]
    push_cast
    linarith
  · have h128 : jsRound (q * 127) < 128 := by
      rw [jsRound, Int.floor_lt]
      push_cast
      linarith
    omega

theorem normalizedComponent_abs_le (sqrt : ℚ → ℚ)
    (hsq : ∀ q a : ℚ, a ^ 2 ≤ q → |a| ≤ sqrt q) (a s : ℚ) (ha : a ^ 2 ≤ s) :
    |if sqrt s > 0 then a / sqrt s else a| ≤ 1 := by
  have h1 : |a| ≤ sqrt s := hsq s a ha
  by_cases hl : sqrt s > 0
  · rw [if_pos hl, abs_div, abs_of_pos hl]
    exact (div_le_one hl).mpr h1
  · rw [if_neg hl]
    have h0 : |a| ≤ 0 := le_trans h1 (not_lt.mp hl)
    have : a = 0 := abs_eq_zero.mp (le_antisymm h0 (abs_nonneg a))
    simp [this]


/-- C9: quantizeNormals is total and safe on any Float32Array whose length is
a multiple of 3: the output has one Int8 per input component; a zero vertex
yields a zero vertex, with the normalization division skipped because its
guard `len > 0` is false (`sqrt 0 = 0`); and every output lies in the Int8
range [-127, 127] (an integer, hence never NaN, and the Int8Array store
never wraps). -/
theorem quantizeNormals_safe (sqrt : ℚ → ℚ)
    (hsq : ∀ q a : ℚ, a ^ 2 ≤ q → |a| ≤ sqrt q) (hz : sqrt 0 = 0)
    (normals : List ℚ) (hlen : normals.length % 3 = 0) :
    ((quantizeNormals sqrt normals).length = normals.length) ∧
    (¬ sqrt ((0 : ℚ) * 0 + 0 * 0 + 0 * 0) > 0) ∧
    (∀ i, i < normals.length / 3 →
      normals.getD (i * 3) 0 = 0 → normals.getD (i * 3 + 1) 0 = 0 →
      normals.getD (i * 3 + 2) 0 = 0 →
        (quantizeNormals sqrt normals).getD (i * 3) 0 = 0 ∧
        (quantizeNormals sqrt normals).getD (i * 3 + 1) 0 = 0 ∧
        (quantizeNormals sqrt normals).getD (i * 3 + 2) 0 = 0) ∧
    (∀ j, j < (quantizeNormals sqrt normals).length →
      -127 ≤ (quantizeNormals sqrt normals).getD j 0 ∧
      (quantizeNormals sqrt normals).getD j 0 ≤ 127) := by
  have h3 : ∀ i, (quantizeNormalVertex sqrt normals i).length = 3 := fun i => rfl
  have hlen3 : (quantizeNormals sqrt normals).length = 3 * (normals.length / 3) :=
    join_map_length _ h3 _
  have hvert : ∀ i c, i < normals.length / 3 → c < 3 →
      (quantizeNormals sqrt normals).getD (i * 3 + c) 0 =
        (quantizeNormalVertex sqrt normals i).getD c 0 := by
    intro i c hi hc
    exact join_map_getD _ h3 _ i c hi hc 0
  refine ⟨?_, ?_, ?_, ?_⟩
  · rw [hlen3]; omega
  · have : ((0 : ℚ) * 0 + 0 * 0 + 0 * 0) = 0 := by norm_num
    rw [this, hz]; norm_num
  · intro i hi hx hy hz3
    have e0 := hvert i 0 hi (by norm_num)
    have e1 := hvert i 1 hi (by norm_num)
    have e2 := hvert i 2 hi (by norm_num)
    rw [Nat.add_zero] at e0
    rw [e0, e1, e2]
    have hj0 : jsRound (0 : ℚ) = 0 := by norm_num [jsRound]
    simp only [List.getD_eq_getElem?_getD] at hx hy hz3
    simp [quantizeNormalVertex, List.getD, hx, hy, hz3, hz, hj0]
  · intro j hj
    rw [hlen3] at hj
    have hij : j = j / 3 * 3 + j % 3 := by omega
    have hi : j / 3 < normals.length / 3 := by omega
    have hc : j % 3 < 3 := by omega
    rw [hij, hvert (j / 3) (j % 3) hi hc]
    set i := j / 3
    have habs : ∀ a : ℚ,
        a = normals.getD (i * 3) 0 ∨ a = normals.getD (i * 3 + 1) 0 ∨
          a = normals.getD (i * 3 + 2) 0 →
        |if sqrt (normals.getD (i * 3) 0 * normals.getD (i * 3) 0 +
            normals.getD (i * 3 + 1) 0 * normals.getD (i * 3 + 1) 0 +
            normals.getD (i * 3 + 2) 0 * normals.getD (i * 3 + 2) 0) > 0 then
            a / sqrt (normals.getD (i * 3) 0 * normals.getD (i * 3) 0 +
              normals.getD (i * 3 + 1) 0 * normals.getD (i * 3 + 1) 0 +
              normals.getD (i * 3 + 2) 0 * normals.getD (i * 3 + 2) 0)
          else a| ≤ 1 := by
      intro a hcase
      apply normalizedComponent_abs_le sqrt hsq
      rcases hcase with rfl | rfl | rfl <;> nlinarith [mul_self_nonneg (normals.getD (i * 3) 0),
        mul_self_nonneg (normals.getD (i * 3 + 1) 0),
        mul_self_nonneg (normals.getD (i * 3 + 2) 0)]
    unfold quantizeNormalVertex
    interval_cases h : j % 3
    · simpa [List.getD] using jsRound_range _ (habs _ (Or.inl rfl))
    · simpa [List.getD] using jsRound_range _ (habs _ (Or.inr (Or.inl rfl)))
    · simpa [List.getD] using jsRound_range _ (habs _ (Or.inr (Or.inr rfl)))

/-- A concrete upper-bound square root over the rationals, used only to
witness the sqrt hypotheses of the quantizeNormals theorem. -/
def sqrtUB (q : ℚ) : ℚ := if q ≤ 0 then 0 else max q 1

theorem sqrtUB_spec : ∀ q a : ℚ, a ^ 2 ≤ q → |a| ≤ sqrtUB q := by
  intro q a h
  unfold sqrtUB
  by_cases hq : q ≤ 0
  · rw [if_pos hq]
    have h0 : a ^ 2 ≤ 0 := le_trans h hq
    have : a = 0 := by nlinarith [sq_nonneg a]
    simp [this]
  · rw [if_neg hq]
    by_cases h1 : |a| ≤ 1
    · exact le_trans h1 (le_max_right q 1)
    · have h2 : 1 < |a| := not_le.mp h1
      have h3 : |a| * |a| = a ^ 2 := by rw [← abs_mul, ← sq, abs_sq]
      have h4 : |a| ≤ a ^ 2 := by nlinarith
      exact le_trans (le_trans h4 h) (le_max_left q 1)

theorem sqrtUB_zero : sqrtUB 0 = 0 := by norm_num [sqrtUB]

/-- Witness for C9 on the concrete input (0,0,0), (3,4,0): the zero vertex
quantizes to zeros and the second vertex's outputs stay in Int8 range. -/
theorem quantizeNormals_safe_witness :
    ([(0 : ℚ), 0, 0, 3, 4, 0].length % 3 = 0) ∧
    (((quantizeNormals sqrtUB [(0 : ℚ), 0, 0, 3, 4, 0]).length =
        [(0 : ℚ), 0, 0, 3, 4, 0].length) ∧
     (¬ sqrtUB ((0 : ℚ) * 0 + 0 * 0 + 0 * 0) > 0) ∧
     (∀ i, i < [(0 : ℚ), 0, 0, 3, 4, 0].length / 3 →
        [(0 : ℚ), 0, 0, 3, 4, 0].getD (i * 3) 0 = 0 →
        [(0 : ℚ), 0, 0, 3, 4, 0].getD (i * 3 + 1) 0 = 0 →
        [(0 : ℚ), 0, 0, 3, 4, 0].getD (i * 3 + 2) 0 = 0 →
          (quantizeNormals sqrtUB [(0 : ℚ), 0, 0, 3, 4, 0]).getD (i * 3) 0 = 0 ∧
          (quantizeNormals sqrtUB [(0 : ℚ), 0, 0, 3, 4, 0]).getD (i * 3 + 1) 0 = 0 ∧
          (quantizeNormals sqrtUB [(0 : ℚ), 0, 0, 3, 4, 0]).getD (i * 3 + 2) 0 = 0) ∧
     (∀ j, j < (quantizeNormals sqrtUB [(0 : ℚ), 0, 0, 3, 4, 0]).length →
        -127 ≤ (quantizeNormals sqrtUB [(0 : ℚ), 0, 0, 3, 4, 0]).getD j 0 ∧
        (quantizeNormals sqrtUB [(0 : ℚ), 0, 0, 3, 4, 0]).getD j 0 ≤ 127)) :=
  ⟨by decide,
    quantizeNormals_safe sqrtUB sqrtUB_spec sqrtUB_zero [(0 : ℚ), 0, 0, 3, 4, 0] (by decide)⟩

end MeshReduce

namespace MeshReduce

/-! ### quantizePositions (quantizer.js lines 21-101)

The JS folds Math.min/Math.max from ±Infinity over all vertices; over the
rationals this is modelled, for a nonempty vertex list, by folding from the
first value. The flat dimensions guard, center, scale, rounding and clamping
are translated line by line. -/

/-- quantizer.js line 24: maxValue = use8Bit ? 127 : 32767. -/
def maxValueFor (bits : ℕ) : ℤ := if bits = 8 then 127 else 32767

/-- The stream of axis-ax components over all vertices. -/
def axisVals (positions : List ℚ) (ax : ℕ) : List ℚ :=
  (List.range (positions.length / 3)).map (fun i => positions.getD (i * 3 + ax) 0)

/-- Per-axis bounding box minimum. -/
def axisMin (positions : List ℚ) (ax : ℕ) : ℚ :=
  match axisVals positions ax with
  | [] => 0
  | x :: xs => xs.foldl min x

/-- Per-axis bounding box maximum. -/
def axisMax (positions : List ℚ) (ax : ℕ) : ℚ :=
  match axisVals positions ax with
  | [] => 0
  | x :: xs => xs.foldl max x

/-- quantizer.js lines 54-58: scale = range > 0 ? range / (2·maxValue) : 1. -/
def axisScale (positions : List ℚ) (bits ax : ℕ) : ℚ :=
  if axisMax positions ax - axisMin positions ax > 0 then
    (axisMax positions ax - axisMin positions ax) / (2 * (maxValueFor bits : ℚ))
  else 1

/-- quantizer.js lines 61-65: center = (min + max) / 2. -/
def axisCenter (positions : List ℚ) (ax : ℕ) : ℚ :=
  (axisMin positions ax + axisMax positions ax) / 2

/-- quantizer.js lines 70-84: component ax of vertex i, rounded and clamped
into [-maxValue, maxValue]. -/
def quantPos (positions : List ℚ) (bits i ax : ℕ) : ℤ :=
  clampInt (-(maxValueFor bits)) (maxValueFor bits)
    (jsRound ((positions.getD (i * 3 + ax) 0 - axisCenter positions ax) /
      axisScale positions bits ax))

/-- The full quantized position array (x, y, z interleaved as in the source). -/
def quantizePositions (positions : List ℚ) (bits : ℕ) : List ℤ :=
  ((List.range (positions.length / 3)).map (fun i =>
    [quantPos positions bits i 0, quantPos positions bits i 1,
     quantPos positions bits i 2])).flatten

theorem maxValueFor_pos (bits : ℕ) : 0 < maxValueFor bits := by
  unfold maxValueFor; split <;> norm_num

theorem foldl_min_le (xs : List ℚ) (x : ℚ) : ∀ v ∈ x :: xs, xs.foldl min x ≤ v := by
  induction xs generalizing x with
  | nil => intro v hv; rw [List.mem_singleton] at hv; subst hv; exact le_refl _
  | cons y ys ih =>
    intro v hv
    rcases List.mem_cons.mp hv with h1 | hv2
    · subst h1
      exact le_trans (ih (min v y) (min v y) (List.mem_cons_self _ _)) (min_le_left _ _)
    · rcases List.mem_cons.mp hv2 with h2 | hv3
      · subst h2
        exact le_trans (ih (min x v) (min x v) (List.mem_cons_self _ _)) (min_le_right _ _)
      · exact ih (min x y) v (List.mem_cons_of_mem _ hv3)

theorem le_foldl_max (xs : List ℚ) (x : ℚ) : ∀ v ∈ x :: xs, v ≤ xs.foldl max x := by
  induction xs generalizing x with
  | nil => intro v hv; rw [List.mem_singleton] at hv; subst hv; exact le_refl _
  | cons y ys ih =>
    intro v hv
    rcases List.mem_cons.mp hv with h1 | hv2
    · subst h1
      exact le_trans (le_max_left _ _) (ih (max v y) (max v y) (List.mem_cons_self _ _))
    · rcases List.mem_cons.mp hv2 with h2 | hv3
      · subst h2
        exact le_trans (le_max_right _ _) (ih (max x v) (max x v) (List.mem_cons_self _ _))
      · exact ih (max x y) v (List.mem_cons_of_mem _ hv3)

theorem axisMin_le_of_mem (positions : List ℚ) (ax : ℕ) (v : ℚ)
    (hv : v ∈ axisVals positions ax) : axisMin positions ax ≤ v := by
  unfold axisMin
  rcases h : axisVals positions ax with - | ⟨x, xs⟩
  · rw [h] at hv; exact absurd hv (List.not_mem_nil v)
  · rw [h] at hv; exact foldl_min_le xs x v hv

theorem le_axisMax_of_mem (positions : List ℚ) (ax : ℕ) (v : ℚ)
    (hv : v ∈ axisVals positions ax) : v ≤ axisMax positions ax := by
  unfold axisMax
  rcases h : axisVals positions ax with - | ⟨x, xs⟩
  · rw [h] at hv; exact absurd hv (List.not_mem_nil v)
  · rw [h] at hv; exact le_foldl_max xs x v hv

theorem getD_mem_axisVals (positions : List ℚ) (i ax : ℕ)
    (hi : i < positions.length / 3) :
    positions.getD (i * 3 + ax) 0 ∈ axisVals positions ax := by
  unfold axisVals
  exact List.mem_map.mpr ⟨i, List.mem_range.mpr hi, rfl⟩

theorem axisRange_nonneg (positions : List ℚ) (ax : ℕ)
    (hne : 0 < positions.length / 3) :
    0 ≤ axisMax positions ax - axisMin positions ax := by
  have hv := getD_mem_axisVals positions 0 ax (by omega)
  have h1 := axisMin_le_of_mem positions ax _ hv
  have h2 := le_axisMax_of_mem positions ax _ hv
  linarith

end MeshReduce

namespace MeshReduce

theorem jsRound_mem_Icc (q : ℚ) (M : ℤ) (h1 : -(M : ℚ) ≤ q) (h2 : q ≤ (M : ℚ)) :
    -M ≤ jsRound q ∧ jsRound q ≤ M := by
  constructor
  · rw [jsRound, Int.le_floor]
    push_cast
    linarith
  · have : jsRound q < M + 1 := by
      rw [jsRound, Int.floor_lt]
      push_cast
      linarith
    omega

theorem clampInt_eq_self (lo hi x : ℤ) (h1 : lo ≤ x) (h2 : x ≤ hi) :
    clampInt lo hi x = x := by
  unfold clampInt; omega

theorem jsRound_err (q : ℚ) : |(jsRound q : ℚ) - q| ≤ 1/2 := by
  have h1 : (jsRound q : ℚ) ≤ q + 1/2 := Int.floor_le _
  have h2 : q + 1/2 < (jsRound q : ℚ) + 1 := Int.lt_floor_add_one _
  rw [abs_le]
  constructor <;> linarith

/-- C1: position quantization round-trip. For every vertex and axis, the
de-quantized value `scale·q + center` is within `max_axis_range/(2·maxValue)`
of the original coordinate (the exact-arithmetic error is even ≤ range/(4·maxValue),
so the claimed bound holds with any nonnegative float epsilon added); and on a
flat axis (min = max) the constant coordinate is recovered exactly. The center,
scale and clamp formulas of the claim are the definitions axisCenter, axisScale
and quantPos themselves. -/
theorem quantizePositions_roundtrip (positions : List ℚ) (bits i ax : ℕ)
    (hbits : bits = 8 ∨ bits = 16) (hi : i < positions.length / 3) (hax : ax < 3) :
    |axisScale positions bits ax * (quantPos positions bits i ax : ℚ) +
        axisCenter positions ax - positions.getD (i * 3 + ax) 0| ≤
      max (axisMax positions 0 - axisMin positions 0)
        (max (axisMax positions 1 - axisMin positions 1)
          (axisMax positions 2 - axisMin positions 2)) /
        (2 * (maxValueFor bits : ℚ)) ∧
    (axisMin positions ax = axisMax positions ax →
      axisScale positions bits ax * (quantPos positions bits i ax : ℚ) +
        axisCenter positions ax = positions.getD (i * 3 + ax) 0) := by
  have hcnt : 0 < positions.length / 3 := by omega
  have hmaxr : axisMax positions ax - axisMin positions ax ≤
      max (axisMax positions 0 - axisMin positions 0)
        (max (axisMax positions 1 - axisMin positions 1)
          (axisMax positions 2 - axisMin positions 2)) := by
    interval_cases ax
    · exact le_max_left _ _
    · exact le_trans (le_max_left _ _) (le_max_right _ _)
    · exact le_trans (le_max_right _ _) (le_max_right _ _)
  have hR : 0 ≤ max (axisMax positions 0 - axisMin positions 0)
      (max (axisMax positions 1 - axisMin positions 1)
        (axisMax positions 2 - axisMin positions 2)) :=
    le_trans (axisRange_nonneg positions 0 hcnt) (le_max_left _ _)
  have hM : (0 : ℤ) < maxValueFor bits := maxValueFor_pos bits
  have hMq : (0 : ℚ) < (maxValueFor bits : ℚ) := by exact_mod_cast hM
  have hmem := getD_mem_axisVals positions i ax hi
  have hpm : axisMin positions ax ≤ positions.getD (i * 3 + ax) 0 :=
    axisMin_le_of_mem _ _ _ hmem
  have hpX : positions.getD (i * 3 + ax) 0 ≤ axisMax positions ax :=
    le_axisMax_of_mem _ _ _ hmem
  set p := positions.getD (i * 3 + ax) 0 with hpdef
  set m := axisMin positions ax with hmdef
  set X := axisMax positions ax with hXdef
  have hc : axisCenter positions ax = (m + X) / 2 := rfl
  by_cases hrpos : X - m > 0
  · -- non-flat axis
    have hscale : axisScale positions bits ax = (X - m) / (2 * (maxValueFor bits : ℚ)) := by
      rw [axisScale, if_pos hrpos]
    set s := (X - m) / (2 * (maxValueFor bits : ℚ)) with hsdef
    have hs : 0 < s := div_pos hrpos (by positivity)
    set t := (p - axisCenter positions ax) / s with htdef
    have hMs : (maxValueFor bits : ℚ) * s = (X - m) / 2 := by
      rw [hsdef]
      field_simp
      ring
    have htu : t ≤ (maxValueFor bits : ℚ) := by
      rw [htdef, div_le_iff hs, hMs, hc]
      linarith
    have htl : -(maxValueFor bits : ℚ) ≤ t := by
      rw [htdef, le_div_iff hs]
      have : -(maxValueFor bits : ℚ) * s = -((X - m) / 2) := by
        rw [neg_mul, hMs]
      rw [this, hc]
      linarith
    obtain ⟨hql, hqu⟩ := jsRound_mem_Icc t (maxValueFor bits) htl htu
    have hqE : quantPos positions bits i ax = jsRound t := by
      rw [quantPos, hscale]
      exact clampInt_eq_self _ _ _ hql hqu
    have hst : s * t = p - axisCenter positions ax := by
      rw [htdef]
      field_simp
    have herr : |(jsRound t : ℚ) - t| ≤ 1/2 := jsRound_err t
    have hkey : axisScale positions bits ax * (quantPos positions bits i ax : ℚ) +
        axisCenter positions ax - p = s * ((jsRound t : ℚ) - t) := by
      rw [hscale, hqE]
      rw [mul_sub, hst]
      ring
    constructor
    · rw [hkey, abs_mul, abs_of_pos hs]
      have h1 : s * |(jsRound t : ℚ) - t| ≤ s * (1/2) := by
        exact mul_le_mul_of_nonneg_left herr hs.le
      refine le_trans h1 ?_
      have hhalf : s * (1/2) = (X - m) / (4 * (maxValueFor bits : ℚ)) := by
        rw [hsdef]; ring
      rw [hhalf, div_le_div_iff (by positivity) (by positivity)]
      nlinarith [hmaxr, hMq, hrpos.le, hR]
    · intro hflat
      exfalso
      rw [hflat] at hrpos
      simp at hrpos
  · -- flat axis: scale = 1, center = p, quantized to 0, exact recovery
    have hXm : X - m = 0 := le_antisymm (not_lt.mp hrpos) (by linarith)
    have hscale : axisScale positions bits ax = 1 := by
      rw [axisScale, if_neg hrpos]
    have hcp : axisCenter positions ax = p := by
      rw [hc]
      linarith
    have hq0 : quantPos positions bits i ax = 0 := by
      rw [quantPos, hscale, hcp]
      have : (p - p) / 1 = 0 := by ring
      rw [this]
      have hj : jsRound 0 = 0 := by norm_num [jsRound]
      rw [hj]
      exact clampInt_eq_self _ _ _ (by omega) (by omega)
    have hE : axisScale positions bits ax * (quantPos positions bits i ax : ℚ) +
        axisCenter positions ax = p := by
      rw [hscale, hq0, hcp]
      norm_num
    constructor
    · rw [hE]
      simp only [sub_self, abs_zero]
      positivity
    · intro _
      exact hE

/-- Witness for C1: two vertices (0,0,0) and (1,2,4) at 16 bits, vertex 1,
axis 2 (range 4, non-flat). -/
theorem quantizePositions_roundtrip_witness :
    ((16 : ℕ) = 8 ∨ (16 : ℕ) = 16) ∧ (1 < [(0 : ℚ), 0, 0, 1, 2, 4].length / 3) ∧
      (2 < 3) ∧
    (|axisScale [(0 : ℚ), 0, 0, 1, 2, 4] 16 2 *
        (quantPos [(0 : ℚ), 0, 0, 1, 2, 4] 16 1 2 : ℚ) +
        axisCenter [(0 : ℚ), 0, 0, 1, 2, 4] 2 -
        [(0 : ℚ), 0, 0, 1, 2, 4].getD (1 * 3 + 2) 0| ≤
      max (axisMax [(0 : ℚ), 0, 0, 1, 2, 4] 0 - axisMin [(0 : ℚ), 0, 0, 1, 2, 4] 0)
        (max (axisMax [(0 : ℚ), 0, 0, 1, 2, 4] 1 - axisMin [(0 : ℚ), 0, 0, 1, 2, 4] 1)
          (axisMax [(0 : ℚ), 0, 0, 1, 2, 4] 2 - axisMin [(0 : ℚ), 0, 0, 1, 2, 4] 2)) /
        (2 * (maxValueFor 16 : ℚ)) ∧
    (axisMin [(0 : ℚ), 0, 0, 1, 2, 4] 2 = axisMax [(0 : ℚ), 0, 0, 1, 2, 4] 2 →
      axisScale [(0 : ℚ), 0, 0, 1, 2, 4] 16 2 *
        (quantPos [(0 : ℚ), 0, 0, 1, 2, 4] 16 1 2 : ℚ) +
        axisCenter [(0 : ℚ), 0, 0, 1, 2, 4] 2 =
        [(0 : ℚ), 0, 0, 1, 2, 4].getD (1 * 3 + 2) 0)) :=
  ⟨Or.inr rfl, by decide, by decide,
    quantizePositions_roundtrip [(0 : ℚ), 0, 0, 1, 2, 4] 16 1 2 (Or.inr rfl)
      (by decide) (by decide)⟩

end MeshReduce

namespace MeshReduce

/-! ### parseGLB (glb-parser.js lines 56-97)

The byte buffer is a List of byte values. `DataView.getUint32` throws a
RangeError when the read passes the end of the buffer, modelled as `none`.
`JSON.parse` is an external builtin; the parsed document is modelled as the
raw bytes of the JSON chunk (decoding assumed to succeed), which is faithful
for every question about which error the parser raises and which chunks it
selects. The while loop advances `offset` by at least 8 per iteration, so
running it on `totalLength` units of fuel always reaches the loop exit; the
fuel-exhausted arm (returning the same rangeError an overrun read would) is
unreachable from `parseGLB`. -/

inductive ParseError
  | badMagic
  | unsupportedVersion
  | rangeError
  | missingJsonChunk
deriving DecidableEq

structure ParsedGLB where
  json : List ℕ
  binChunk : Option (List ℕ)
deriving DecidableEq

/-- DataView.getUint32(offset, true): little-endian 32-bit read. -/
def getUint32 (bytes : List ℕ) (off : ℕ) : Option ℕ :=
  if off + 4 ≤ bytes.length then
    some (bytes.getD off 0 + 256 * bytes.getD (off + 1) 0 +
      65536 * bytes.getD (off + 2) 0 + 16777216 * bytes.getD (off + 3) 0)
  else none

/-- glb-parser.js line 92: offset = (offset + 3) & ~3, round up to 4 bytes. -/
def align4 (n : ℕ) : ℕ := (n + 3) / 4 * 4

/-- glb-parser.js lines 77-93: the chunk scan. A chunk's data is
`buffer.slice(offset+8, offset+8+chunkLength)` (clamping, like slice);
JSON chunks overwrite `json`, BIN chunks overwrite `binChunk`. -/
def chunkLoop (bytes : List ℕ) (totalLength : ℕ) :
    ℕ → ℕ → Option (List ℕ) → Option (List ℕ) →
    Except ParseError (Option (List ℕ) × Option (List ℕ))
  | 0, offset, json, bin =>
    if offset < totalLength then .error .rangeError else .ok (json, bin)
  | fuel + 1, offset, json, bin =>
    if offset < totalLength then
      match getUint32 bytes offset with
      | none => .error .rangeError
      | some chunkLength =>
        match getUint32 bytes (offset + 4) with
        | none => .error .rangeError
        | some chunkType =>
          let chunkData := (bytes.drop (offset + 8)).take chunkLength
          let json1 := if chunkType = 0x4E4F534A then some chunkData else json
          let bin1 := if chunkType = 0x004E4942 then some chunkData else bin
          chunkLoop bytes totalLength fuel (align4 (offset + 8 + chunkLength)) json1 bin1
    else .ok (json, bin)

/-- parseGLB from glb-parser.js: header checks (magic, version 2), chunk
scan, then the missing-JSON check. -/
def parseGLB (bytes : List ℕ) : Except ParseError ParsedGLB :=
  match getUint32 bytes 0 with
  | none => .error .rangeError
  | some magic =>
    if magic ≠ 0x46546C67 then .error .badMagic
    else
      match getUint32 bytes 4 with
      | none => .error .rangeError
      | some version =>
        if version ≠ 2 then .error .unsupportedVersion
        else
          match getUint32 bytes 8 with
          | none => .error .rangeError
          | some totalLength =>
            match chunkLoop bytes totalLength totalLength 12 none none with
            | .error e => .error e
            | .ok (json, bin) =>
              match json with
              | none => .error .missingJsonChunk
              | some j => .ok ⟨j, bin⟩

/-- In-bounds predicate for the chunk scan: every chunk-header read the loop
performs stays inside the buffer (mirrors chunkLoop step for step). -/
def chunksOkB (bytes : List ℕ) (totalLength : ℕ) : ℕ → ℕ → Bool
  | 0, offset => decide (totalLength ≤ offset)
  | fuel + 1, offset =>
    if offset < totalLength then
      match getUint32 bytes offset, getUint32 bytes (offset + 4) with
      | some chunkLength, some _ =>
        chunksOkB bytes totalLength fuel (align4 (offset + 8 + chunkLength))
      | _, _ => false
    else true

theorem chunkLoop_ok_of_chunksOk (bytes : List ℕ) (total : ℕ) :
    ∀ fuel offset json bin, chunksOkB bytes total fuel offset = true →
      ∃ r, chunkLoop bytes total fuel offset json bin = .ok r := by
  intro fuel
  induction fuel with
  | zero =>
    intro offset json bin h
    rw [chunksOkB, decide_eq_true_eq] at h
    rw [chunkLoop, if_neg (by omega)]
    exact ⟨(json, bin), rfl⟩
  | succ n ih =>
    intro offset json bin h
    rw [chunksOkB] at h
    rw [chunkLoop]
    by_cases ho : offset < total
    · rw [if_pos ho] at h ⊢
      rcases h1 : getUint32 bytes offset with - | chunkLength
      · rw [h1] at h; exact absurd h (by simp)
      · rw [h1] at h
        rcases h2 : getUint32 bytes (offset + 4) with - | chunkType
        · rw [h2] at h; exact absurd h (by simp)
        · rw [h2] at h
          exact ih _ _ _ h
    · rw [if_neg ho]
      exact ⟨(json, bin), rfl⟩

end MeshReduce

namespace MeshReduce

/-- C6 (amended): parseGLB fails with the magic error whenever the first u32
is not 0x46546C67, with the version error whenever the magic is right but the
version field is not 2, and — provided every chunk-header read of the scan
stays inside the buffer — it fails with the missing-JSON error exactly when
the scan finds no JSON chunk, and returns the parsed asset otherwise. (When a
chunk read runs past the buffer the parser instead throws a RangeError; see
the counterexample.) -/
theorem parseGLB_spec :
    (∀ bytes m, getUint32 bytes 0 = some m → m ≠ 0x46546C67 →
        parseGLB bytes = .error .badMagic) ∧
    (∀ bytes ver, getUint32 bytes 0 = some 0x46546C67 →
        getUint32 bytes 4 = some ver → ver ≠ 2 →
        parseGLB bytes = .error .unsupportedVersion) ∧
    (∀ bytes total, getUint32 bytes 0 = some 0x46546C67 →
        getUint32 bytes 4 = some 2 → getUint32 bytes 8 = some total →
        chunksOkB bytes total total 12 = true →
        ((∃ j b, chunkLoop bytes total total 12 none none = .ok (some j, b) ∧
            parseGLB bytes = .ok ⟨j, b⟩) ∨
         (∃ b, chunkLoop bytes total total 12 none none = .ok (none, b) ∧
            parseGLB bytes = .error .missingJsonChunk))) := by
  refine ⟨?_, ?_, ?_⟩
  · intro bytes m h0 hm
    simp only [parseGLB, h0]
    rw [if_pos hm]
  · intro bytes ver h0 h4 hv
    simp only [parseGLB, h0, h4]
    rw [if_neg (by norm_num), if_pos hv]
  · intro bytes total h0 h4 h8 hok
    obtain ⟨r, hr⟩ := chunkLoop_ok_of_chunksOk bytes total total 12 none none hok
    obtain ⟨json, bin⟩ := r
    have hp : parseGLB bytes =
        match chunkLoop bytes total total 12 none none with
        | .error e => .error e
        | .ok (json, bin) =>
          match json with
          | none => .error .missingJsonChunk
          | some j => .ok ⟨j, bin⟩ := by
      simp only [parseGLB, h0, h4, h8]
      rw [if_neg (by norm_num), if_neg (by norm_num)]
    rcases json with - | j
    · right
      exact ⟨bin, hr, by rw [hp, hr]⟩
    · left
      exact ⟨j, bin, hr, by rw [hp, hr]⟩

/-- A 12-byte buffer: valid magic and version, declared totalLength 16, but
no chunk bytes at all — the first chunk-header read overruns the buffer. -/
def truncatedGLB : List ℕ :=
  [0x67, 0x6C, 0x54, 0x46, 2, 0, 0, 0, 16, 0, 0, 0]

/-- C6 counterexample: on a truncated buffer containing no JSON chunk (no
chunks at all), parseGLB raises the range error of the out-of-bounds
getUint32, not the missing-JSON-chunk error, and returns no parsed asset. -/
theorem parseGLB_truncated_counterexample :
    parseGLB truncatedGLB = .error .rangeError ∧
    ParseError.rangeError ≠ ParseError.missingJsonChunk := by
  constructor
  · rfl
  · decide

/-- A minimal well-formed GLB: 24 bytes, one 4-byte JSON chunk. -/
def smallGLB : List ℕ :=
  [0x67, 0x6C, 0x54, 0x46, 2, 0, 0, 0, 24, 0, 0, 0,
   4, 0, 0, 0, 0x4A, 0x53, 0x4F, 0x4E, 0x7B, 0x7D, 0x20, 0x20]

/-- Witness for C6 on the minimal GLB: all header hypotheses hold and the
scan is in bounds, so the parser returns the asset or the missing-JSON error
according to the scan result. -/
theorem parseGLB_spec_witness :
    (getUint32 smallGLB 0 = some 0x46546C67) ∧
    (getUint32 smallGLB 4 = some 2) ∧
    (getUint32 smallGLB 8 = some 24) ∧
    (chunksOkB smallGLB 24 24 12 = true) ∧
    ((∃ j b, chunkLoop smallGLB 24 24 12 none none = .ok (some j, b) ∧
        parseGLB smallGLB = .ok ⟨j, b⟩) ∨
     (∃ b, chunkLoop smallGLB 24 24 12 none none = .ok (none, b) ∧
        parseGLB smallGLB = .error .missingJsonChunk)) :=
  ⟨by decide, by decide, by decide, by decide,
    parseGLB_spec.2.2 smallGLB 24 (by decide) (by decide) (by decide) (by decide)⟩

end MeshReduce

namespace MeshReduce

/-! ### writeGLB (glb-writer.js lines 18-503)

The model covers the parts the claims quantify over: the extension
declarations (lines 22-35), and the per-primitive emission of index and
attribute bufferViews/accessors with meshopt compression and its fallback
(lines 77-288). The meshopt encoder (external WASM) is a `BufferCodec`
capability whose `encode*` return `none` where the JS encoder throws; the
`MeshoptEncoder.supported` flag is its `supported` field. Image and
animation/skin copying (lines 299-449) append only plain bufferViews with no
compression extension and are exercised by none of the claims; the inputs
modelled are assets without images, animations or skins. The JS groups
primitives into meshes by meshIndex preserving first-insertion order, which
for parser-produced primitives (already sorted by mesh) equals processing
them in list order, as done here; the per-primitive accessor wiring is kept
in `meshes` as (indices accessor, attribute accessor assignments). -/

/-- COMPONENT_SIZE table from glb-parser.js lines 21-28. -/
def COMPONENT_SIZE (componentType : ℕ) : ℕ :=
  if componentType = 5120 then 1 else if componentType = 5121 then 1
  else if componentType = 5122 then 2 else if componentType = 5123 then 2
  else if componentType = 5125 then 4 else if componentType = 5126 then 4 else 0

/-- TYPE_COMPONENTS table from glb-parser.js lines 31-39. -/
def TYPE_COMPONENTS (t : String) : ℕ :=
  if t = "SCALAR" then 1 else if t = "VEC2" then 2 else if t = "VEC3" then 3
  else if t = "VEC4" then 4 else if t = "MAT2" then 4 else if t = "MAT3" then 9
  else if t = "MAT4" then 16 else 0

/-- glb-writer.js line 572: alignTo(offset, a) = ceil(offset/a)·a. -/
def alignTo (offset alignment : ℕ) : ℕ :=
  (offset + alignment - 1) / alignment * alignment

/-- The EXT_meshopt_compression extension object on a bufferView. -/
structure MeshoptExt where
  byteOffset : ℕ
  byteLength : ℕ
  byteStride : ℕ
  count : ℕ
  mode : String
deriving DecidableEq

structure OutBufferView where
  byteOffset : ℕ
  byteLength : ℕ
  target : Option ℕ
  compression : Option MeshoptExt
deriving DecidableEq

structure OutAccessor where
  bufferView : ℕ
  componentType : ℕ
  count : ℕ
  typeStr : String
  normalized : Bool
  minQ : Option (List ℚ)
  maxQ : Option (List ℚ)
deriving DecidableEq

/-- An optimized primitive's index buffer as handed to writeGLB. -/
structure WIndices where
  elems : List ℕ
  componentType : ℕ
deriving DecidableEq

/-- An optimized primitive's attribute as handed to writeGLB. -/
structure WAttr where
  dataBytes : List ℕ
  componentType : ℕ
  typeStr : String
  count : ℕ
  normalized : Bool
  minQ : Option (List ℚ)
  maxQ : Option (List ℚ)
deriving DecidableEq

structure WPrim where
  meshIndex : ℕ
  mode : ℕ
  material : Option ℕ
  indices : Option WIndices
  attributes : List (String × WAttr)
deriving DecidableEq

structure WriterState where
  bufferViews : List OutBufferView
  accessors : List OutAccessor
  bufferData : List (List ℕ)
  currentOffset : ℕ
deriving DecidableEq

/-- The injected meshopt encoder capability (§BufferCodec): throwing encodes
are `none`. -/
structure BufferCodec where
  supported : Bool
  encodeIndexBuffer : List ℕ → ℕ → Option (List ℕ)
  encodeVertexBuffer : List ℕ → ℕ → ℕ → Option (List ℕ)

/-- Little-endian byte expansion of one stored element. -/
def bytesLE (width value : ℕ) : List ℕ :=
  (List.range width).map (fun k => value / 256 ^ k % 256)

/-- The raw bytes of a typed index array (its Uint8Array view). -/
def indexBytes (ind : WIndices) : List ℕ :=
  (ind.elems.map (bytesLE (COMPONENT_SIZE ind.componentType))).flatten

/-- glb-writer.js alignment steps (e.g. lines 102-106): pad bufferData with
zero bytes up to the aligned offset. -/
def alignState (st : WriterState) (alignment : ℕ) : WriterState :=
  let alignedOffset := alignTo st.currentOffset alignment
  if alignedOffset > st.currentOffset then
    { st with
      bufferData := st.bufferData ++ [List.replicate (alignedOffset - st.currentOffset) 0],
      currentOffset := alignedOffset }
  else st

/-- glb-writer.js lines 135-185: emit an uncompressed index bufferView
(4-aligned, ELEMENT_ARRAY_BUFFER target, original component type). The
fallback branch after a failed encode (lines 135-159) and the
compression-disabled branch (lines 160-185) are the same emission. -/
def emitIndicesUncompressed (st : WriterState) (ind : WIndices) : WriterState × ℕ :=
  let st1 := alignState st 4
  let indexByteLength := ind.elems.length * COMPONENT_SIZE ind.componentType
  let bv : OutBufferView :=
    { byteOffset := st1.currentOffset, byteLength := indexByteLength,
      target := some 34963, compression := none }
  let st2 : WriterState :=
    { bufferViews := st1.bufferViews ++ [bv],
      accessors := st1.accessors ++
        [{ bufferView := st1.bufferViews.length, componentType := ind.componentType,
           count := ind.elems.length, typeStr := "SCALAR", normalized := false,
           minQ := none, maxQ := none }],
      bufferData := st1.bufferData ++ [indexBytes ind],
      currentOffset := st1.currentOffset + indexByteLength }
  (st2, st2.accessors.length - 1)

/-- glb-writer.js lines 77-186: emit the index bufferView of one primitive,
compressed via the codec when enabled/supported/nonempty, with local
fallback to the uncompressed emission when the codec throws. -/
def emitIndices (codec : BufferCodec) (useMeshoptCompression : Bool)
    (st : WriterState) (ind : WIndices) : WriterState × ℕ :=
  let indexCount := ind.elems.length
  let canCompressIndices :=
    useMeshoptCompression && codec.supported && decide (indexCount > 0)
  if canCompressIndices then
    match codec.encodeIndexBuffer ind.elems indexCount with
    | some compressed =>
      let st1 := alignState st 4
      let bv : OutBufferView :=
        { byteOffset := st1.currentOffset, byteLength := compressed.length,
          target := none,
          compression := some
            { byteOffset := st1.currentOffset, byteLength := compressed.length,
              byteStride := 4, count := indexCount, mode := "TRIANGLES" } }
      let st2 : WriterState :=
        { bufferViews := st1.bufferViews ++ [bv],
          accessors := st1.accessors ++
            [{ bufferView := st1.bufferViews.length, componentType := 5125,
               count := indexCount, typeStr := "SCALAR", normalized := false,
               minQ := none, maxQ := none }],
          bufferData := st1.bufferData ++ [compressed],
          currentOffset := st1.currentOffset + compressed.length }
      (st2, st2.accessors.length - 1)
    | none => emitIndicesUncompressed st ind
  else emitIndicesUncompressed st ind

/-- glb-writer.js lines 249-263 (and the identical fallback lines 234-248):
uncompressed attribute bufferView, aligned to the component size. -/
def emitAttributeUncompressed (st : WriterState) (name : String) (attr : WAttr) :
    WriterState × ℕ :=
  let componentSize := COMPONENT_SIZE attr.componentType
  let st1 := alignState st componentSize
  let bv : OutBufferView :=
    { byteOffset := st1.currentOffset, byteLength := attr.dataBytes.length,
      target := some 34962, compression := none }
  let st2 : WriterState :=
    { bufferViews := st1.bufferViews ++ [bv],
      accessors := st1.accessors ++
        [{ bufferView := st1.bufferViews.length, componentType := attr.componentType,
           count := attr.count, typeStr := attr.typeStr, normalized := attr.normalized,
           minQ := if name = "POSITION" ∧ attr.minQ.isSome ∧ attr.maxQ.isSome then
               attr.minQ else none,
           maxQ := if name = "POSITION" ∧ attr.minQ.isSome ∧ attr.maxQ.isSome then
               attr.maxQ else none }],
      bufferData := st1.bufferData ++ [attr.dataBytes],
      currentOffset := st1.currentOffset + attr.dataBytes.length }
  (st2, st2.accessors.length - 1)

/-- glb-writer.js lines 188-288: emit one attribute's bufferView, compressed
when the stride divides 4 and is ≤ 256 etc., falling back locally to the
uncompressed view when the codec throws. -/
def emitAttribute (codec : BufferCodec) (useMeshoptCompression : Bool)
    (st : WriterState) (name : String) (attr : WAttr) : WriterState × ℕ :=
  let componentSize := COMPONENT_SIZE attr.componentType
  let numComponents := TYPE_COMPONENTS attr.typeStr
  let stride := componentSize * numComponents
  let canCompress := useMeshoptCompression && codec.supported &&
    decide (stride % 4 = 0) && decide (stride ≤ 256) && decide (attr.count > 0)
  if canCompress then
    match codec.encodeVertexBuffer attr.dataBytes attr.count stride with
    | some compressed =>
      let st1 := alignState st 4
      let bv : OutBufferView :=
        { byteOffset := st1.currentOffset, byteLength := compressed.length,
          target := none,
          compression := some
            { byteOffset := st1.currentOffset, byteLength := compressed.length,
              byteStride := stride, count := attr.count, mode := "ATTRIBUTES" } }
      let st2 : WriterState :=
        { bufferViews := st1.bufferViews ++ [bv],
          accessors := st1.accessors ++
            [{ bufferView := st1.bufferViews.length, componentType := attr.componentType,
               count := attr.count, typeStr := attr.typeStr, normalized := attr.normalized,
               minQ := if name = "POSITION" ∧ attr.minQ.isSome ∧ attr.maxQ.isSome then
                   attr.minQ else none,
               maxQ := if name = "POSITION" ∧ attr.minQ.isSome ∧ attr.maxQ.isSome then
                   attr.maxQ else none }],
          bufferData := st1.bufferData ++ [compressed],
          currentOffset := st1.currentOffset + compressed.length }
      (st2, st2.accessors.length - 1)
    | none => emitAttributeUncompressed st name attr
  else emitAttributeUncompressed st name attr

/-- Emit all bufferViews of one primitive: indices first, then attributes in
entry order, returning the accessor indices assigned to the primitive. -/
def processPrimitive (codec : BufferCodec) (useMeshoptCompression : Bool)
    (st : WriterState) (prim : WPrim) :
    WriterState × (Option ℕ × List (String × ℕ)) :=
  let r1 := match prim.indices with
    | some ind =>
      let r := emitIndices codec useMeshoptCompression st ind
      (r.1, some r.2)
    | none => (st, (none : Option ℕ))
  let r2 := prim.attributes.foldl
    (fun (acc : WriterState × List (String × ℕ)) p =>
      let r := emitAttribute codec useMeshoptCompression acc.1 p.1 p.2
      (r.1, acc.2 ++ [(p.1, r.2)]))
    (r1.1, [])
  (r2.1, (r1.2, r2.2))

/-- The output document parts relevant to the claims. -/
structure GLBJson where
  extensionsUsed : List String
  extensionsRequired : List String
  bufferViews : List OutBufferView
  accessors : List OutAccessor
  meshes : List (Option ℕ × List (String × ℕ))
  bufferByteLength : ℕ
deriving DecidableEq

/-- writeGLB from glb-writer.js on an asset without images/animations/skins:
extension declarations (lines 22-35), then the per-primitive emission. -/
def writeGLB (codec : BufferCodec) (useMeshoptCompression : Bool)
    (primitives : List WPrim) : GLBJson :=
  let extensionsUsed :=
    if useMeshoptCompression then
      ["KHR_mesh_quantization", "EXT_meshopt_compression"]
    else ["KHR_mesh_quantization"]
  let extensionsRequired :=
    if useMeshoptCompression then
      ["KHR_mesh_quantization", "EXT_meshopt_compression"]
    else ["KHR_mesh_quantization"]
  let init : WriterState :=
    { bufferViews := [], accessors := [], bufferData := [], currentOffset := 0 }
  let final := primitives.foldl
    (fun (acc : WriterState × List (Option ℕ × List (String × ℕ))) prim =>
      let r := processPrimitive codec useMeshoptCompression acc.1 prim
      (r.1, acc.2 ++ [r.2]))
    (init, [])
  { extensionsUsed := extensionsUsed, extensionsRequired := extensionsRequired,
    bufferViews := final.1.bufferViews, accessors := final.1.accessors,
    meshes := final.2, bufferByteLength := final.1.currentOffset }

end MeshReduce

namespace MeshReduce

/-- C2 (amended): the written GLB's extensionsUsed contains
EXT_meshopt_compression exactly when the meshoptCompression option is on —
independent of whether any emitted bufferView actually carries compressed
bytes — and extensionsRequired always equals extensionsUsed. -/
theorem extensions_flag_spec (codec : BufferCodec) (useM : Bool)
    (prims : List WPrim) :
    (("EXT_meshopt_compression" ∈ (writeGLB codec useM prims).extensionsUsed) ↔
      useM = true) ∧
    (writeGLB codec useM prims).extensionsRequired =
      (writeGLB codec useM prims).extensionsUsed := by
  cases useM <;> simp [writeGLB]

/-- A primitive with a single byte-stride-3 NORMAL attribute and no indices:
its vertex view can never be meshopt-compressed (stride 3 is not divisible
by 4). -/
def stride3Prim : WPrim :=
  { meshIndex := 0, mode := 4, material := none, indices := none,
    attributes := [("NORMAL",
      { dataBytes := [1, 2, 3], componentType := 5120, typeStr := "VEC3",
        count := 1, normalized := true, minQ := none, maxQ := none })] }

/-- A codec that always succeeds (so the absence of compression below is not
the codec's doing). -/
def happyCodec : BufferCodec :=
  { supported := true,
    encodeIndexBuffer := fun elems _ => some elems,
    encodeVertexBuffer := fun bytes _ _ => some bytes }

/-- C2 counterexample: with compression enabled, a supported always-succeeding
codec, and one uncompressible primitive, the output declares
EXT_meshopt_compression although its single bufferView carries no compressed
bytes (no EXT_meshopt_compression extension object anywhere). -/
theorem extensions_counterexample :
    ("EXT_meshopt_compression" ∈ (writeGLB happyCodec true [stride3Prim]).extensionsUsed) ∧
    (writeGLB happyCodec true [stride3Prim]).bufferViews.all
      (fun bv => bv.compression.isNone) = true ∧
    (writeGLB happyCodec true [stride3Prim]).bufferViews.length = 1 := by
  decide

theorem alignState_bufferViews (st : WriterState) (a : ℕ) :
    (alignState st a).bufferViews = st.bufferViews := by
  unfold alignState
  dsimp only
  split <;> rfl

theorem alignState_accessors (st : WriterState) (a : ℕ) :
    (alignState st a).accessors = st.accessors := by
  unfold alignState
  dsimp only
  split <;> rfl

theorem emitIndicesUncompressed_views_len (st : WriterState) (ind : WIndices) :
    (emitIndicesUncompressed st ind).1.bufferViews.length =
      st.bufferViews.length + 1 := by
  simp [emitIndicesUncompressed, alignState_bufferViews]

theorem emitIndices_views_len (codec : BufferCodec) (u : Bool)
    (st : WriterState) (ind : WIndices) :
    (emitIndices codec u st ind).1.bufferViews.length =
      st.bufferViews.length + 1 := by
  unfold emitIndices
  dsimp only
  split
  · rcases h : codec.encodeIndexBuffer ind.elems ind.elems.length with - | compressed
    · exact emitIndicesUncompressed_views_len st ind
    · simp [alignState_bufferViews]
  · exact emitIndicesUncompressed_views_len st ind

theorem emitAttributeUncompressed_views_len (st : WriterState) (name : String)
    (attr : WAttr) :
    (emitAttributeUncompressed st name attr).1.bufferViews.length =
      st.bufferViews.length + 1 := by
  simp [emitAttributeUncompressed, alignState_bufferViews]

theorem emitAttribute_views_len (codec : BufferCodec) (u : Bool)
    (st : WriterState) (name : String) (attr : WAttr) :
    (emitAttribute codec u st name attr).1.bufferViews.length =
      st.bufferViews.length + 1 := by
  unfold emitAttribute
  dsimp only
  split
  · rcases h : codec.encodeVertexBuffer attr.dataBytes attr.count
        (COMPONENT_SIZE attr.componentType * TYPE_COMPONENTS attr.typeStr) with - | compressed
    · exact emitAttributeUncompressed_views_len st name attr
    · simp [alignState_bufferViews]
  · exact emitAttributeUncompressed_views_len st name attr

theorem attrFold_views_len (codec : BufferCodec) (u : Bool)
    (attrs : List (String × WAttr)) :
    ∀ (st : WriterState) (acc : List (String × ℕ)),
      ((attrs.foldl
        (fun (a : WriterState × List (String × ℕ)) p =>
          let r := emitAttribute codec u a.1 p.1 p.2
          (r.1, a.2 ++ [(p.1, r.2)]))
        (st, acc)).1).bufferViews.length =
        st.bufferViews.length + attrs.length := by
  induction attrs with
  | nil => intro st acc; rfl
  | cons p rest ih =>
    intro st acc
    rw [List.foldl_cons]
    dsimp only
    rw [ih, emitAttribute_views_len]
    simp only [List.length_cons]
    omega

theorem processPrimitive_views_len (codec : BufferCodec) (u : Bool)
    (st : WriterState) (p : WPrim) :
    (processPrimitive codec u st p).1.bufferViews.length =
      st.bufferViews.length +
        ((match p.indices with | some _ => 1 | none => 0) + p.attributes.length) := by
  unfold processPrimitive
  rcases hind : p.indices with - | ind
  · simp only [hind]
    rw [attrFold_views_len]
    omega
  · simp only [hind]
    rw [attrFold_views_len, emitIndices_views_len]
    omega

theorem primFold_views_len (codec : BufferCodec) (u : Bool) (prims : List WPrim) :
    ∀ (st : WriterState) (acc : List (Option ℕ × List (String × ℕ))),
      ((prims.foldl
        (fun (a : WriterState × List (Option ℕ × List (String × ℕ))) prim =>
          let r := processPrimitive codec u a.1 prim
          (r.1, a.2 ++ [r.2]))
        (st, acc)).1).bufferViews.length =
        st.bufferViews.length +
          (prims.map (fun p =>
            (match p.indices with | some _ => 1 | none => 0) +
              p.attributes.length)).sum := by
  induction prims with
  | nil => intro st acc; simp
  | cons p rest ih =>
    intro st acc
    rw [List.foldl_cons, List.map_cons, List.sum_cons]
    dsimp only
    rw [ih, processPrimitive_views_len]
    omega

/-- C7: when the compression codec fails (throws) on an index or vertex
buffer while the compression path was taken, the writer falls back locally to
the uncompressed emission — the bufferView carries no compression extension,
its byteLength is the data's own byte length, its target is the
element/array buffer target, and the accessor keeps the data's own component
type — and the write still completes, emitting exactly one bufferView per
index/attribute buffer of every primitive, regardless of codec outcomes. -/
theorem compression_fallback_spec :
    (∀ (codec : BufferCodec) (st : WriterState) (ind : WIndices),
      codec.supported = true → 0 < ind.elems.length →
      codec.encodeIndexBuffer ind.elems ind.elems.length = none →
      emitIndices codec true st ind = emitIndicesUncompressed st ind) ∧
    (∀ (st : WriterState) (ind : WIndices),
      (emitIndicesUncompressed st ind).1.bufferViews =
        (alignState st 4).bufferViews ++
          [{ byteOffset := (alignState st 4).currentOffset,
             byteLength := ind.elems.length * COMPONENT_SIZE ind.componentType,
             target := some 34963, compression := none }] ∧
      (emitIndicesUncompressed st ind).1.accessors =
        (alignState st 4).accessors ++
          [{ bufferView := (alignState st 4).bufferViews.length,
             componentType := ind.componentType, count := ind.elems.length,
             typeStr := "SCALAR", normalized := false,
             minQ := none, maxQ := none }]) ∧
    (∀ (codec : BufferCodec) (st : WriterState) (name : String) (attr : WAttr),
      codec.supported = true → 0 < attr.count →
      (COMPONENT_SIZE attr.componentType * TYPE_COMPONENTS attr.typeStr) % 4 = 0 →
      COMPONENT_SIZE attr.componentType * TYPE_COMPONENTS attr.typeStr ≤ 256 →
      codec.encodeVertexBuffer attr.dataBytes attr.count
        (COMPONENT_SIZE attr.componentType * TYPE_COMPONENTS attr.typeStr) = none →
      emitAttribute codec true st name attr = emitAttributeUncompressed st name attr) ∧
    (∀ (st : WriterState) (name : String) (attr : WAttr),
      (emitAttributeUncompressed st name attr).1.bufferViews =
        (alignState st (COMPONENT_SIZE attr.componentType)).bufferViews ++
          [{ byteOffset := (alignState st (COMPONENT_SIZE attr.componentType)).currentOffset,
             byteLength := attr.dataBytes.length, target := some 34962,
             compression := none }]) ∧
    (∀ (codec : BufferCodec) (useM : Bool) (prims : List WPrim),
      (writeGLB codec useM prims).bufferViews.length =
        (prims.map (fun p =>
          (match p.indices with | some _ => 1 | none => 0) +
            p.attributes.length)).sum) := by
  refine ⟨?_, ?_, ?_, ?_, ?_⟩
  · intro codec st ind hsup hcount henc
    unfold emitIndices
    dsimp only
    rw [hsup, henc, decide_eq_true hcount]
    rfl
  · intro st ind
    constructor <;> rfl
  · intro codec st name attr hsup hcount hmod hle henc
    unfold emitAttribute
    dsimp only
    rw [hsup, henc, decide_eq_true hcount, decide_eq_true hmod, decide_eq_true hle]
    rfl
  · intro st name attr
    rfl
  · intro codec useM prims
    unfold writeGLB
    rw [primFold_views_len]
    simp

/-- A codec that is supported but always throws. -/
def throwingCodec : BufferCodec :=
  { supported := true,
    encodeIndexBuffer := fun _ _ => none,
    encodeVertexBuffer := fun _ _ _ => none }

/-- A primitive with an index buffer and one compressible-stride POSITION
attribute, used to witness the fallback. -/
def fallbackPrim : WPrim :=
  { meshIndex := 0, mode := 4, material := none,
    indices := some { elems := [0, 1, 2], componentType := 5121 },
    attributes := [("POSITION",
      { dataBytes := List.replicate 12 7, componentType := 5122, typeStr := "VEC3",
        count := 2, normalized := false, minQ := none, maxQ := none })] }

/-- Witness for C7: the throwing codec on a concrete state and concrete
index/vertex buffers takes the fallback, and writeGLB still emits both
bufferViews. -/
theorem compression_fallback_spec_witness :
    (throwingCodec.supported = true) ∧
    (0 < ([0, 1, 2] : List ℕ).length) ∧
    (throwingCodec.encodeIndexBuffer [0, 1, 2] ([0, 1, 2] : List ℕ).length = none) ∧
    (emitIndices throwingCodec true
        { bufferViews := [], accessors := [], bufferData := [], currentOffset := 0 }
        { elems := [0, 1, 2], componentType := 5121 } =
      emitIndicesUncompressed
        { bufferViews := [], accessors := [], bufferData := [], currentOffset := 0 }
        { elems := [0, 1, 2], componentType := 5121 }) ∧
    ((writeGLB throwingCodec true [fallbackPrim]).bufferViews.length =
      ([fallbackPrim].map (fun p =>
        (match p.indices with | some _ => 1 | none => 0) +
          p.attributes.length)).sum) :=
  ⟨rfl, by decide, rfl,
    compression_fallback_spec.1 throwingCodec
      { bufferViews := [], accessors := [], bufferData := [], currentOffset := 0 }
      { elems := [0, 1, 2], componentType := 5121 } rfl (by decide) rfl,
    compression_fallback_spec.2.2.2.2 throwingCodec true [fallbackPrim]⟩

end MeshReduce

namespace MeshReduce

/-! ### optimizer.js: data model for the pipeline (optimizePrimitive,
simplifyPrimitive, generateLODChain)

Primitives as produced by glb-parser.js getAllPrimitives: attribute map in
insertion order, typed data as rationals, indices decoded to a plain list.
The meshoptimizer WASM capabilities are parameters; note compactMesh and
reorderMesh rewrite the passed index array in place, so they are modelled as
also returning the rewritten indices. -/

structure ParsedAttr where
  data : List ℚ
  typeStr : String
  componentType : ℕ
  normalized : Bool
deriving DecidableEq

structure SimplifyStats where
  originalTriangles : ℕ
  simplifiedTriangles : ℕ
  originalVertices : ℕ
  simplifiedVertices : ℕ
  errorValue : ℚ
deriving DecidableEq

structure ParsedPrim where
  meshIndex : ℕ
  primitiveIndex : ℕ
  meshName : String
  mode : ℕ
  material : Option ℕ
  attributes : List (String × ParsedAttr)
  indices : Option (List ℕ)
  indicesComponentType : ℕ
  stats : Option SimplifyStats
deriving DecidableEq

/-- Object.entries-style attribute lookup (`primitive.attributes[name]`). -/
def findAttr (attrs : List (String × ParsedAttr)) (name : String) :
    Option ParsedAttr :=
  (attrs.find? (fun p => p.1 == name)).map Prod.snd

/-- Default used only where the JS would have thrown on a missing POSITION
attribute before reaching the modelled point (every claim input has one). -/
def defaultPosAttr : ParsedAttr :=
  { data := [], typeStr := "VEC3", componentType := 5126, normalized := false }

/-- optimizer.js lines 901-907. -/
def createDefaultIndices (vertexCount : ℕ) : List ℕ := List.range vertexCount

/-- Fold-from-Infinity minimum, for nonempty input (as in the JS loops). -/
def listMin (xs : List ℚ) : ℚ :=
  match xs with
  | [] => 0
  | x :: r => r.foldl min x

def listMax (xs : List ℚ) : ℚ :=
  match xs with
  | [] => 0
  | x :: r => r.foldl max x

/-- optimizer.js lines 909-924 (remapAttribute): scatter each old vertex into
its new slot; the output length is `(max remap + 1) * numComponents`. -/
def remapAttribute (data : List ℚ) (remap : List ℕ) (numComponents : ℕ) :
    List ℚ :=
  let oldCount := data.length / numComponents
  let newCount := remap.foldl max 0 + 1
  (List.range oldCount).foldl
    (fun acc oldIdx =>
      let newIndex := remap.getD oldIdx 0
      if newIndex < newCount then
        (List.range numComponents).foldl
          (fun acc2 j =>
            acc2.set (newIndex * numComponents + j)
              (data.getD (oldIdx * numComponents + j) 0))
          acc
      else acc)
    (List.replicate (newCount * numComponents) 0)

/-- optimizer.js lines 1082-1101: the gather loop after compactMesh inside
simplifyPrimitive (bounded by the explicit vertexCount and uniqueCount). -/
def remapGather (oldData : List ℚ) (remap : List ℕ)
    (numComponents vertexCount uniqueCount : ℕ) : List ℚ :=
  (List.range vertexCount).foldl
    (fun acc oldIdx =>
      let newIdx := remap.getD oldIdx 0
      if newIdx < uniqueCount then
        (List.range numComponents).foldl
          (fun acc2 c =>
            acc2.set (newIdx * numComponents + c)
              (oldData.getD (oldIdx * numComponents + c) 0))
          acc
      else acc)
    (List.replicate (uniqueCount * numComponents) 0)

/-- optimizer.js lines 926-942 (optimizeIndexBuffer): narrow the index width
to u8/u16/u32 by vertex count (typed-array stores wrap). -/
structure OptIndices where
  data : List ℕ
  componentType : ℕ
deriving DecidableEq

def optimizeIndexBuffer (indices : List ℕ) (vertexCount : ℕ) : OptIndices :=
  if vertexCount ≤ 255 then
    { data := indices.map (fun i => i % 256), componentType := 5121 }
  else if vertexCount ≤ 65535 then
    { data := indices.map (fun i => i % 65536), componentType := 5123 }
  else { data := indices, componentType := 5125 }

/-- optimizer.js lines 972-996: per-component min/max of an interleaved
attribute stream. -/
def computeMin (data : List ℚ) (numComponents : ℕ) : List ℚ :=
  (List.range numComponents).map (fun j =>
    listMin ((List.range (data.length / numComponents)).map
      (fun i => data.getD (i * numComponents + j) 0)))

def computeMax (data : List ℚ) (numComponents : ℕ) : List ℚ :=
  (List.range numComponents).map (fun j =>
    listMax ((List.range (data.length / numComponents)).map
      (fun i => data.getD (i * numComponents + j) 0)))

/-- The record quantizePositions returns (quantizer.js lines 90-100). -/
structure QuantPositions where
  quantized : List ℤ
  minB : List ℚ
  maxB : List ℚ
  scale : List ℚ
  center : List ℚ
  componentType : ℕ
  quantizedMin : List ℤ
  quantizedMax : List ℤ
deriving DecidableEq

def quantizePositionsFull (positions : List ℚ) (bits : ℕ) : QuantPositions :=
  { quantized := quantizePositions positions bits,
    minB := [axisMin positions 0, axisMin positions 1, axisMin positions 2],
    maxB := [axisMax positions 0, axisMax positions 1, axisMax positions 2],
    scale := [axisScale positions bits 0, axisScale positions bits 1,
      axisScale positions bits 2],
    center := [axisCenter positions 0, axisCenter positions 1,
      axisCenter positions 2],
    componentType := if bits = 8 then 5120 else 5122,
    quantizedMin := [-(maxValueFor bits), -(maxValueFor bits), -(maxValueFor bits)],
    quantizedMax := [maxValueFor bits, maxValueFor bits, maxValueFor bits] }

/-- quantizeUVs (quantizer.js lines 195-254). Uint16 stores take the value
mod 2^16 (Int.emod for the JS ToUint16 of the rounded value). -/
structure QuantUVs where
  quantized : List ℕ
  componentType : ℕ
  typeStr : String
  normalized : Bool
  minPair : List ℚ
  maxPair : List ℚ
  offsetScale : Option (List ℚ × List ℚ)
deriving DecidableEq

def toUint16 (z : ℤ) : ℕ := (z.emod 65536).toNat

def quantizeUVs (uvs : List ℚ) : QuantUVs :=
  let count := uvs.length / 2
  let uList := (List.range count).map (fun i => uvs.getD (i * 2) 0)
  let vList := (List.range count).map (fun i => uvs.getD (i * 2 + 1) 0)
  let minU := listMin uList
  let maxU := listMax uList
  let minV := listMin vList
  let maxV := listMax vList
  if 0 ≤ minU ∧ maxU ≤ 1 ∧ 0 ≤ minV ∧ maxV ≤ 1 then
    { quantized := ((List.range count).map (fun i =>
        [toUint16 (jsRound (uvs.getD (i * 2) 0 * 65535)),
         toUint16 (jsRound (uvs.getD (i * 2 + 1) 0 * 65535))])).flatten,
      componentType := 5123, typeStr := "VEC2", normalized := true,
      minPair := [0, 0], maxPair := [1, 1], offsetScale := none }
  else
    let rangeU := if maxU - minU = 0 then 1 else maxU - minU
    let rangeV := if maxV - minV = 0 then 1 else maxV - minV
    { quantized := ((List.range count).map (fun i =>
        [toUint16 (jsRound ((uvs.getD (i * 2) 0 - minU) / rangeU * 65535)),
         toUint16 (jsRound ((uvs.getD (i * 2 + 1) 0 - minV) / rangeV * 65535))])).flatten,
      componentType := 5123, typeStr := "VEC2", normalized := true,
      minPair := [minU, minV], maxPair := [maxU, maxV],
      offsetScale := some ([minU, minV], [rangeU, rangeV]) }

/-- quantizeTangents (quantizer.js lines 262-293): xyz normalized and rounded
like normals, w snapped to ±127 by sign. -/
def quantizeTangentVertex (sqrt : ℚ → ℚ) (tangents : List ℚ) (i : ℕ) : List ℤ :=
  let tx := tangents.getD (i * 4) 0
  let ty := tangents.getD (i * 4 + 1) 0
  let tz := tangents.getD (i * 4 + 2) 0
  let tw := tangents.getD (i * 4 + 3) 0
  let len := sqrt (tx * tx + ty * ty + tz * tz)
  let tx1 := if len > 0 then tx / len else tx
  let ty1 := if len > 0 then ty / len else ty
  let tz1 := if len > 0 then tz / len else tz
  [jsRound (tx1 * 127), jsRound (ty1 * 127), jsRound (tz1 * 127),
   if tw ≥ 0 then 127 else -127]

def quantizeTangents (sqrt : ℚ → ℚ) (tangents : List ℚ) : List ℤ :=
  ((List.range (tangents.length / 4)).map (quantizeTangentVertex sqrt tangents)).flatten

end MeshReduce

namespace MeshReduce

/-- The injected meshoptimizer simplifier (optimizer.js imports
MeshoptSimplifier). `compactMesh` returns (rewritten indices, remap,
uniqueCount) — the WASM wrapper remaps the index array in place. -/
structure SimplifierCap where
  supported : Bool
  simplify : List ℕ → List ℚ → ℕ → ℚ → List ℕ × ℚ
  simplifyWithAttributes : List ℕ → List ℚ → List ℚ → List Bool → ℕ → ℚ → List ℕ × ℚ
  compactMesh : List ℕ → List ℕ × List ℕ × ℕ

/-- The options object simplifyPrimitive receives from generateLODChain. -/
structure SimplifyOpts where
  textureAware : Bool
  textureImportance : Option (List ℚ)
  importanceThreshold : Option ℚ
deriving DecidableEq

/-- simplifyPrimitive (optimizer.js lines 1001-1116): compute the 3-aligned
target index count, optionally build the seam-aware vertex lock, run the
simplifier, compact, gather all attributes onto the compacted vertices. The
returned indices are the (in-place compacted) simplifier output; the
simplified triangle count is its length / 3 (compaction preserves length). -/
def simplifyPrimitive (S : SimplifierCap) (prim : ParsedPrim)
    (targetRatio errorThreshold : ℚ) (opts : SimplifyOpts) : ParsedPrim :=
  if !S.supported then prim
  else
    let positions := ((findAttr prim.attributes "POSITION").getD defaultPosAttr).data
    let vertexCount := positions.length / 3
    let indices := prim.indices.getD (createDefaultIndices vertexCount)
    let targetIndexCount := (Int.floor ((indices.length : ℚ) * targetRatio)).toNat
    let targetIndexCountAligned := max 3 (targetIndexCount / 3 * 3)
    let simpPair :=
      if opts.textureAware && opts.textureImportance.isSome then
        let uvs := (findAttr prim.attributes "TEXCOORD_0").map (fun a => a.data)
        let uvSeams := match uvs with
          | some u => findUVSeams positions u
          | none => (∅ : Finset ℕ)
        let vertexLock := buildVertexLock opts.textureImportance uvSeams
          (effectiveImportanceThreshold opts.importanceThreshold)
        match uvs with
        | some u =>
          S.simplifyWithAttributes indices positions u vertexLock
            targetIndexCountAligned errorThreshold
        | none => S.simplify indices positions targetIndexCountAligned errorThreshold
      else S.simplify indices positions targetIndexCountAligned errorThreshold
    let cm := S.compactMesh simpPair.1
    let simplifiedIndices := cm.1
    let remap := cm.2.1
    let uniqueCount := cm.2.2
    let newAttributes := prim.attributes.map (fun p =>
      (p.1, { p.2 with
        data := remapGather p.2.data remap (TYPE_COMPONENTS p.2.typeStr)
          vertexCount uniqueCount }))
    { prim with
      attributes := newAttributes,
      indices := some simplifiedIndices,
      stats := some
        { originalTriangles := indices.length / 3,
          simplifiedTriangles := simplifiedIndices.length / 3,
          originalVertices := vertexCount,
          simplifiedVertices := uniqueCount,
          errorValue := simpPair.2 } }

structure LODEntry where
  level : ℚ
  primitives : List ParsedPrim
  triangleCount : ℕ
  originalTriangleCount : ℕ
deriving DecidableEq

/-- generateLODChain (optimizer.js lines 1121-1206), simplification stage:
for each target ratio every original primitive is passed to simplifyPrimitive
— there is no special case for any ratio. The texture/view importance
analysis (asynchronous image and rasterization work) enters as the
`importanceMap` input; the threshold is forwarded as
`options.importanceThreshold || 0.5`. The per-level optimizeGLB repackaging
(quantization and packing, modelled by optimizePrimitive) does not touch the
simplified index buffers or the triangle counts recorded here. -/
def generateLODChain (S : SimplifierCap) (originalPrimitives : List ParsedPrim)
    (levels : List ℚ) (errorThreshold : ℚ) (textureAware : Bool)
    (importanceMap : ℕ → Option (List ℚ)) (importanceThreshold : Option ℚ) :
    List LODEntry :=
  levels.map (fun targetRatio =>
    let simplifiedPrimitives := originalPrimitives.enum.map (fun pi =>
      simplifyPrimitive S pi.2 targetRatio errorThreshold
        { textureAware := textureAware && (importanceMap pi.1).isSome,
          textureImportance := importanceMap pi.1,
          importanceThreshold :=
            some (effectiveImportanceThreshold importanceThreshold) })
    let totalTriangles := (simplifiedPrimitives.map (fun p =>
      match p.stats with | some s => s.simplifiedTriangles | none => 0)).sum
    let totalOriginalTriangles := (simplifiedPrimitives.map (fun p =>
      match p.stats with | some s => s.originalTriangles | none => 0)).sum
    { level := targetRatio, primitives := simplifiedPrimitives,
      triangleCount := totalTriangles,
      originalTriangleCount := totalOriginalTriangles })

end MeshReduce

namespace MeshReduce

/-- Four vertices, two triangles, used as a concrete LOD input. -/
def lodPrim : ParsedPrim :=
  { meshIndex := 0, primitiveIndex := 0, meshName := "m", mode := 4,
    material := none,
    attributes := [("POSITION",
      { data := [0, 0, 0, 1, 0, 0, 0, 1, 0, 1, 1, 0], typeStr := "VEC3",
        componentType := 5126, normalized := false })],
    indices := some [0, 1, 2, 1, 2, 3], indicesComponentType := 5123,
    stats := none }

/-- A legal simplifier instance: collapses to a single triangle whenever
asked (allowed by the capability contract), identity compaction. -/
def mockSimplifier : SimplifierCap :=
  { supported := true,
    simplify := fun _ _ _ _ => ([0, 1, 2], 0),
    simplifyWithAttributes := fun _ _ _ _ _ _ => ([0, 1, 2], 0),
    compactMesh := fun ind => (ind, [0, 1, 2, 0], 3) }

def noTexOpts : SimplifyOpts :=
  { textureAware := false, textureImportance := none, importanceThreshold := none }

/-- C3 counterexample: at target ratio 1.0 the LOD chain entry is built from
the simplifier's output — here indices [0,1,2], one triangle — not from the
un-simplified input primitive (indices [0,1,2,1,2,3], two triangles); the
simplifier is invoked at ratio 1.0 like at any other ratio. -/
theorem lod_ratio_one_counterexample :
    ((generateLODChain mockSimplifier [lodPrim] [1] (1/50) false
        (fun _ => none) none).map
      (fun e => (e.primitives.map (fun p => p.indices), e.triangleCount))) =
      [([some [0, 1, 2]], 1)] ∧
    lodPrim.indices = some [0, 1, 2, 1, 2, 3] ∧
    (some [0, 1, 2] : Option (List ℕ)) ≠ some [0, 1, 2, 1, 2, 3] := by
  decide

/-- C3 (amended): the LOD generator runs simplifyPrimitive at every ratio,
including 1.0; at ratio 1.0 the simplifier is called with the full index
list and a target index count equal to the full count (rounded down to a
multiple of 3, at least 3 — the identity for nonempty triangle lists), and
the entry's indices are exactly the simplifier's (compacted) output. -/
theorem lod_ratio_one_amended :
    (∀ (S : SimplifierCap) (prim : ParsedPrim) (errTh : ℚ) (opts : SimplifyOpts),
      S.supported = true → opts.textureAware = false →
      (simplifyPrimitive S prim 1 errTh opts).indices =
        some (S.compactMesh
          (S.simplify
            (prim.indices.getD (createDefaultIndices
              (((findAttr prim.attributes "POSITION").getD defaultPosAttr).data.length / 3)))
            ((findAttr prim.attributes "POSITION").getD defaultPosAttr).data
            (max 3
              ((prim.indices.getD (createDefaultIndices
                (((findAttr prim.attributes "POSITION").getD
                  defaultPosAttr).data.length / 3))).length / 3 * 3))
            errTh).1).1) ∧
    (∀ n : ℕ, 3 ∣ n → 0 < n → max 3 (n / 3 * 3) = n) ∧
    (∀ (S : SimplifierCap) (prims : List ParsedPrim) (levels : List ℚ)
        (errTh : ℚ) (ta : Bool) (imap : ℕ → Option (List ℚ)) (ith : Option ℚ),
      (generateLODChain S prims levels errTh ta imap ith).map
        (fun e => e.level) = levels) := by
  refine ⟨?_, ?_, ?_⟩
  · intro S prim errTh opts hsup htex
    simp [simplifyPrimitive, hsup, htex, mul_one, Int.floor_natCast]
  · intro n h3 h0
    omega
  · intro S prims levels errTh ta imap ith
    simp [generateLODChain, Function.comp_def]

/-- Witness for C3's amended theorem at the concrete mock simplifier. -/
theorem lod_ratio_one_amended_witness :
    (mockSimplifier.supported = true) ∧ (noTexOpts.textureAware = false) ∧
    ((simplifyPrimitive mockSimplifier lodPrim 1 (1/50) noTexOpts).indices =
      some (mockSimplifier.compactMesh
        (mockSimplifier.simplify
          (lodPrim.indices.getD (createDefaultIndices
            (((findAttr lodPrim.attributes "POSITION").getD defaultPosAttr).data.length / 3)))
          ((findAttr lodPrim.attributes "POSITION").getD defaultPosAttr).data
          (max 3
            ((lodPrim.indices.getD (createDefaultIndices
              (((findAttr lodPrim.attributes "POSITION").getD
                defaultPosAttr).data.length / 3))).length / 3 * 3))
          (1/50)).1).1) ∧
    ((3 ∣ 6) ∧ 0 < 6 ∧ max 3 (6 / 3 * 3) = 6) :=
  ⟨rfl, rfl,
    lod_ratio_one_amended.1 mockSimplifier lodPrim (1/50) noTexOpts rfl rfl,
    ⟨by decide, by decide, lod_ratio_one_amended.2.1 6 (by decide) (by decide)⟩⟩

end MeshReduce

namespace MeshReduce

/-! ### optimizePrimitive (optimizer.js lines 636-816)

The JS function both returns a fresh result object and, in the dedupe and
cache-reorder stages, reassigns the *input* primitive's non-POSITION
attribute entries to remapped copies (lines 674-682 and 693-702). The model
returns the pair (result, primitive-after-call), making that effect a value.
Typed result arrays are a tagged variant (ints for Int8/Int16 quantized,
nats for Uint16 UVs and the narrowed indices, floats otherwise). -/

inductive AttrData
  | ints (xs : List ℤ)
  | floats (xs : List ℚ)
  | nats (xs : List ℕ)
deriving DecidableEq

def AttrData.len : AttrData → ℕ
  | .ints xs => xs.length
  | .floats xs => xs.length
  | .nats xs => xs.length

structure OptAttr where
  data : AttrData
  componentType : ℕ
  typeStr : String
  count : ℕ
  normalized : Bool
  minB : Option (List ℚ)
  maxB : Option (List ℚ)
  transform : Option (List ℚ × List ℚ)
deriving DecidableEq

structure OptStats where
  originalVertices : ℕ
  optimizedVertices : ℕ
  originalBytes : ℕ
  optimizedBytes : ℕ
deriving DecidableEq

structure OptResult where
  meshIndex : ℕ
  primitiveIndex : ℕ
  meshName : String
  mode : ℕ
  material : Option ℕ
  attributes : List (String × OptAttr)
  indicesOut : Option OptIndices
  stats : OptStats
deriving DecidableEq

structure PipelineOptions where
  deduplicateVertices : Bool
  optimizeVertexCache : Bool
  quantizePositions : Bool
  quantizeNormals : Bool
  quantizeUVs : Bool
  quantizeTangents : Bool
  positionBits : ℕ
  meshoptCompression : Bool
deriving DecidableEq

/-- optimizer.js lines 608-617. -/
def DEFAULT_OPTIONS : PipelineOptions :=
  { deduplicateVertices := true, optimizeVertexCache := true,
    quantizePositions := true, quantizeNormals := true, quantizeUVs := true,
    quantizeTangents := true, positionBits := 16, meshoptCompression := true }

/-- optimizer.js line 753: `i === 0 ? 'TEXCOORD_0' : TEXCOORD_i`. -/
def uvName (i : ℕ) : String :=
  if i = 0 then "TEXCOORD_0" else "TEXCOORD_" ++ toString i

/-- The attribute names handled by dedicated branches; everything else passes
through (line 799 `if (!result.attributes[name])`). -/
def knownAttrNames : List String :=
  ["POSITION", "NORMAL", "TEXCOORD_0", "TEXCOORD_1", "TEXCOORD_2",
   "TEXCOORD_3", "TANGENT"]

/-- The in-place reassignment loops of lines 674-682 / 693-702: every
non-POSITION attribute entry of the input primitive is rebound to a remapped
copy; POSITION entries and all other fields stay. -/
def mutateNonPositionAttrs (prim : ParsedPrim) (remap : List ℕ) : ParsedPrim :=
  { prim with attributes := prim.attributes.map (fun p =>
      if p.1 = "POSITION" then p
      else (p.1, { p.2 with
        data := remapAttribute p.2.data remap (TYPE_COMPONENTS p.2.typeStr) })) }

structure PipeState where
  indices : List ℕ
  positions : List ℚ
  vertexCount : ℕ
  prim : ParsedPrim
deriving DecidableEq

def optimizePrimitive (sq : ℚ → ℚ) (simpSupported encSupported : Bool)
    (compactMesh reorderMesh : List ℕ → List ℕ × List ℕ × ℕ)
    (primitive : ParsedPrim) (o : PipelineOptions) : OptResult × ParsedPrim :=
  let positions0 := ((findAttr primitive.attributes "POSITION").getD defaultPosAttr).data
  let vertexCount0 := positions0.length / 3
  let indices0 := primitive.indices.getD (createDefaultIndices vertexCount0)
  let originalBytes :=
    (match primitive.indices with
      | some l => l.length * COMPONENT_SIZE primitive.indicesComponentType
      | none => 0) +
    (primitive.attributes.map (fun p =>
      p.2.data.length * COMPONENT_SIZE p.2.componentType)).sum
  let s1 : PipeState :=
    if o.deduplicateVertices && simpSupported then
      let cm := compactMesh indices0
      { indices := cm.1, positions := remapAttribute positions0 cm.2.1 3,
        vertexCount := cm.2.2, prim := mutateNonPositionAttrs primitive cm.2.1 }
    else
      { indices := indices0, positions := positions0,
        vertexCount := vertexCount0, prim := primitive }
  let s2 : PipeState :=
    if o.optimizeVertexCache && encSupported then
      let rm := reorderMesh s1.indices
      { indices := rm.1, positions := remapAttribute s1.positions rm.2.1 3,
        vertexCount := rm.2.2, prim := mutateNonPositionAttrs s1.prim rm.2.1 }
    else s1
  let posOut : String × OptAttr :=
    if o.quantizePositions then
      let qp := quantizePositionsFull s2.positions o.positionBits
      ("POSITION",
        { data := .ints qp.quantized, componentType := qp.componentType,
          typeStr := "VEC3", count := s2.vertexCount, normalized := false,
          minB := some (qp.quantizedMin.map (fun z => (z : ℚ))),
          maxB := some (qp.quantizedMax.map (fun z => (z : ℚ))),
          transform := some (qp.scale, qp.center) })
    else
      ("POSITION",
        { data := .floats s2.positions, componentType := 5126, typeStr := "VEC3",
          count := s2.vertexCount, normalized := false,
          minB := some (computeMin s2.positions 3),
          maxB := some (computeMax s2.positions 3), transform := none })
  let normOut : List (String × OptAttr) :=
    match findAttr s2.prim.attributes "NORMAL" with
    | none => []
    | some a =>
      if o.quantizeNormals then
        [("NORMAL",
          { data := .ints (quantizeNormals sq a.data), componentType := 5120,
            typeStr := "VEC3", count := s2.vertexCount, normalized := true,
            minB := none, maxB := none, transform := none })]
      else
        [("NORMAL",
          { data := .floats a.data, componentType := 5126, typeStr := "VEC3",
            count := s2.vertexCount, normalized := false,
            minB := none, maxB := none, transform := none })]
  let uvOuts : List (String × OptAttr) :=
    (List.range 4).filterMap (fun i =>
      (findAttr s2.prim.attributes (uvName i)).map (fun a =>
        if o.quantizeUVs then
          let q := quantizeUVs a.data
          (uvName i,
            { data := .nats q.quantized, componentType := q.componentType,
              typeStr := q.typeStr, count := s2.vertexCount,
              normalized := q.normalized, minB := none, maxB := none,
              transform := none })
        else
          (uvName i,
            { data := .floats a.data, componentType := 5126, typeStr := "VEC2",
              count := s2.vertexCount, normalized := false, minB := none,
              maxB := none, transform := none })))
  let tanOut : List (String × OptAttr) :=
    match findAttr s2.prim.attributes "TANGENT" with
    | none => []
    | some a =>
      if o.quantizeTangents then
        [("TANGENT",
          { data := .ints (quantizeTangents sq a.data), componentType := 5120,
            typeStr := "VEC4", count := s2.vertexCount, normalized := true,
            minB := none, maxB := none, transform := none })]
      else
        [("TANGENT",
          { data := .floats a.data, componentType := 5126, typeStr := "VEC4",
            count := s2.vertexCount, normalized := false, minB := none,
            maxB := none, transform := none })]
  let passOuts : List (String × OptAttr) :=
    (s2.prim.attributes.filter (fun p => decide (p.1 ∉ knownAttrNames))).map
      (fun p =>
        (p.1,
          { data := .floats p.2.data, componentType := p.2.componentType,
            typeStr := p.2.typeStr, count := s2.vertexCount,
            normalized := p.2.normalized, minB := none, maxB := none,
            transform := none }))
  let outAttrs := [posOut] ++ normOut ++ uvOuts ++ tanOut ++ passOuts
  let indicesOut := optimizeIndexBuffer s2.indices s2.vertexCount
  let optimizedBytes :=
    indicesOut.data.length * COMPONENT_SIZE indicesOut.componentType +
    (outAttrs.map (fun p => p.2.data.len * COMPONENT_SIZE p.2.componentType)).sum
  ({ meshIndex := primitive.meshIndex, primitiveIndex := primitive.primitiveIndex,
     meshName := primitive.meshName, mode := primitive.mode,
     material := primitive.material, attributes := outAttrs,
     indicesOut := some indicesOut,
     stats := { originalVertices := vertexCount0,
                optimizedVertices := s2.vertexCount,
                originalBytes := originalBytes,
                optimizedBytes := optimizedBytes } },
   s2.prim)

end MeshReduce

namespace MeshReduce

/-- What survives an optimizePrimitive call on the input primitive: every
field except the attribute map, the attribute names and their order, and
every POSITION attribute entry. -/
def primShapeOK (a b : ParsedPrim) : Prop :=
  b.meshIndex = a.meshIndex ∧ b.primitiveIndex = a.primitiveIndex ∧
  b.meshName = a.meshName ∧ b.mode = a.mode ∧ b.material = a.material ∧
  b.indices = a.indices ∧ b.indicesComponentType = a.indicesComponentType ∧
  b.stats = a.stats ∧
  b.attributes.map Prod.fst = a.attributes.map Prod.fst ∧
  ∀ i, i < a.attributes.length →
    (a.attributes.getD i ("", defaultPosAttr)).1 = "POSITION" →
    b.attributes.getD i ("", defaultPosAttr) =
      a.attributes.getD i ("", defaultPosAttr)

theorem primShapeOK_refl (a : ParsedPrim) : primShapeOK a a :=
  ⟨rfl, rfl, rfl, rfl, rfl, rfl, rfl, rfl, rfl, fun _ _ _ => rfl⟩

theorem primShapeOK_trans {a b c : ParsedPrim} (hab : primShapeOK a b)
    (hbc : primShapeOK b c) : primShapeOK a c := by
  obtain ⟨h1, h2, h3, h4, h5, h6, h7, h8, h9, h10⟩ := hab
  obtain ⟨g1, g2, g3, g4, g5, g6, g7, g8, g9, g10⟩ := hbc
  have hlen : b.attributes.length = a.attributes.length := by
    have := congrArg List.length h9
    simpa using this
  refine ⟨g1.trans h1, g2.trans h2, g3.trans h3, g4.trans h4, g5.trans h5,
    g6.trans h6, g7.trans h7, g8.trans h8, g9.trans h9, ?_⟩
  intro i hi hp
  have hb := h10 i hi hp
  have hib : i < b.attributes.length := by omega
  have hpb : (b.attributes.getD i ("", defaultPosAttr)).1 = "POSITION" := by
    rw [hb]; exact hp
  rw [g10 i hib hpb, hb]

theorem map_fst_mutate (attrs : List (String × ParsedAttr)) (r : List ℕ) :
    (attrs.map (fun p =>
      if p.1 = "POSITION" then p
      else (p.1, { p.2 with
        data := remapAttribute p.2.data r (TYPE_COMPONENTS p.2.typeStr) }))).map
      Prod.fst = attrs.map Prod.fst := by
  induction attrs with
  | nil => rfl
  | cons p rest ih =>
    by_cases hp : p.1 = "POSITION" <;> simp [hp, ih]

theorem getD_mutate_of_position (attrs : List (String × ParsedAttr))
    (r : List ℕ) (i : ℕ) (hi : i < attrs.length)
    (hp : (attrs.getD i ("", defaultPosAttr)).1 = "POSITION") :
    (attrs.map (fun p =>
      if p.1 = "POSITION" then p
      else (p.1, { p.2 with
        data := remapAttribute p.2.data r (TYPE_COMPONENTS p.2.typeStr) }))).getD
      i ("", defaultPosAttr) = attrs.getD i ("", defaultPosAttr) := by
  have hgetD : attrs.getD i ("", defaultPosAttr) = attrs[i] := by
    rw [List.getD_eq_getElem?_getD, List.getElem?_eq_getElem hi]
    rfl
  rw [List.getD_eq_getElem?_getD, List.getElem?_map,
    List.getElem?_eq_getElem hi]
  rw [hgetD] at hp
  simp only [Option.map_some', Option.getD_some]
  rw [if_pos hp, hgetD]

theorem mutate_shapeOK (a : ParsedPrim) (r : List ℕ) :
    primShapeOK a (mutateNonPositionAttrs a r) :=
  ⟨rfl, rfl, rfl, rfl, rfl, rfl, rfl, rfl, map_fst_mutate a.attributes r,
    fun i hi hp => getD_mutate_of_position a.attributes r i hi hp⟩

/-- C4 (amended): the result object of optimizePrimitive is freshly built,
and the input primitive's backing data is never written; but the input
primitive is not left fully unchanged: its non-POSITION attribute entries
are reassigned to remapped copies by the dedupe and cache-reorder stages.
Formally: with both stages disabled (or their capability unsupported) the
input comes back unchanged, and in all cases every field other than the
attribute map, all attribute names and their order, and every POSITION
attribute entry of the input are unchanged. -/
theorem optimizePrimitive_mutation_spec :
    (∀ (sq : ℚ → ℚ) (simpS encS : Bool)
        (cm rm : List ℕ → List ℕ × List ℕ × ℕ)
        (primitive : ParsedPrim) (o : PipelineOptions),
      (o.deduplicateVertices && simpS) = false →
      (o.optimizeVertexCache && encS) = false →
      (optimizePrimitive sq simpS encS cm rm primitive o).2 = primitive) ∧
    (∀ (sq : ℚ → ℚ) (simpS encS : Bool)
        (cm rm : List ℕ → List ℕ × List ℕ × ℕ)
        (primitive : ParsedPrim) (o : PipelineOptions),
      primShapeOK primitive
        (optimizePrimitive sq simpS encS cm rm primitive o).2) := by
  constructor
  · intro sq simpS encS cm rm primitive o h1 h2
    unfold optimizePrimitive
    dsimp only
    rw [h1, h2]
    rfl
  · intro sq simpS encS cm rm primitive o
    unfold optimizePrimitive
    dsimp only
    rcases Bool.eq_false_or_eq_true (o.deduplicateVertices && simpS) with h1 | h1 <;>
      rcases Bool.eq_false_or_eq_true (o.optimizeVertexCache && encS) with h2 | h2 <;>
        rw [h1, h2] <;>
        first
        | exact primShapeOK_refl primitive
        | exact mutate_shapeOK primitive _
        | exact primShapeOK_trans (mutate_shapeOK primitive _) (mutate_shapeOK _ _)

/-- Two duplicated vertices with POSITION and NORMAL, indices [0,1,0]. -/
def dupPrim : ParsedPrim :=
  { meshIndex := 0, primitiveIndex := 0, meshName := "m", mode := 4,
    material := none,
    attributes := [("POSITION",
      { data := [0, 0, 0, 0, 0, 0], typeStr := "VEC3", componentType := 5126,
        normalized := false }),
      ("NORMAL",
      { data := [1, 0, 0, 1, 0, 0], typeStr := "VEC3", componentType := 5126,
        normalized := false })],
    indices := some [0, 1, 0], indicesComponentType := 5123, stats := none }

def dedupeOnly : PipelineOptions :=
  { DEFAULT_OPTIONS with optimizeVertexCache := false }

/-- A legal dedupe of the two identical vertices: both collapse to index 0. -/
def mockCompact : List ℕ → List ℕ × List ℕ × ℕ :=
  fun ind => (ind.map (fun _ => 0), [0, 0], 1)

def mockReorder : List ℕ → List ℕ × List ℕ × ℕ :=
  fun ind => (ind, [0], 1)

/-- C4 counterexample: after optimizePrimitive returns, the input primitive
is changed — its NORMAL attribute entry now holds the remapped single-vertex
copy [1,0,0] instead of the original two-vertex array — so not all changes
appear only in the returned result object. -/
theorem optimizePrimitive_mutates_input_counterexample :
    ((optimizePrimitive sqrtUB true false mockCompact mockReorder dupPrim
        dedupeOnly).2 ≠ dupPrim) ∧
    ((optimizePrimitive sqrtUB true false mockCompact mockReorder dupPrim
        dedupeOnly).2.attributes.map (fun p => (p.1, p.2.data)) =
      [("POSITION", ([0, 0, 0, 0, 0, 0] : List ℚ)),
       ("NORMAL", ([1, 0, 0] : List ℚ))]) := by
  decide

/-- Witness for C4's amended theorem: with the stages disabled the input is
untouched, and with dedupe enabled the preserved-shape facts hold. -/
theorem optimizePrimitive_mutation_spec_witness :
    ((DEFAULT_OPTIONS.deduplicateVertices && false) = false) ∧
    ((DEFAULT_OPTIONS.optimizeVertexCache && false) = false) ∧
    ((optimizePrimitive sqrtUB false false mockCompact mockReorder dupPrim
        DEFAULT_OPTIONS).2 = dupPrim) ∧
    primShapeOK dupPrim
      (optimizePrimitive sqrtUB true false mockCompact mockReorder dupPrim
        dedupeOnly).2 :=
  ⟨by decide, by decide,
    optimizePrimitive_mutation_spec.1 sqrtUB false false mockCompact mockReorder
      dupPrim DEFAULT_OPTIONS (by decide) (by decide),
    optimizePrimitive_mutation_spec.2 sqrtUB true false mockCompact mockReorder
      dupPrim dedupeOnly⟩

end MeshReduce
